import Mathlib

/-!
Verification development for the ImpDAR radar-file decoders.

We give a shallow embedding of three components of the repository:

* `ApresHeader` (src/impdar/lib/ApresData/ApresHeader.py): the embedded
  hex-register header decoder (`file_format`, `update_parameters`);
* `ApresData.check_attrs` (src/impdar/lib/ApresData/__init__.py): the
  normalized record model's invariant check;
* `gecko` (src/impdar/lib/load_gecko.py): the framed multi-channel binary
  trace-file decoder.

Python strings are modelled as `List Char`; Python numbers (ints and the
file's numeric fields) as `ℚ`/`ℤ` with the exact arithmetic the source
performs; attributes that the source sets conditionally are `Option`-valued
(`none` = the attribute was never assigned, so reading it raises
`AttributeError`).  Methods that mutate `self` are modelled as functions
returning the final state together with `Option` of the raised exception,
so that partial mutation before an exception is visible.
-/

namespace ImpDAR

/-! ## Python primitives over `List Char` and exact numbers -/

/-- Python index semantics: a negative index counts from the end. -/
def pyIdx (len : Nat) (i : Int) : Int :=
  if i < 0 then i + len else i

/-- Python slice `s[a:b]` (with wrap-around of negative indices and
clamping to the string bounds). -/
def pySlice (s : List Char) (a b : Int) : List Char :=
  (s.take (pyIdx s.length b).toNat).drop (pyIdx s.length a).toNat

/-- Python slice `s[a:]`. -/
def pySliceFrom (s : List Char) (a : Int) : List Char :=
  s.drop (pyIdx s.length a).toNat

/-- Index of the first occurrence of `pat` in `s` (`str.find` / the first
match of `re.finditer`), if any. -/
def firstMatch (pat : List Char) : List Char → Option Nat
  | [] => if pat.isEmpty then some 0 else none
  | c :: rest =>
    if pat.isPrefixOf (c :: rest) then some 0
    else (firstMatch pat rest).map (· + 1)

/-- Python `str.find`: index of the first occurrence, `-1` if absent. -/
def pyFind (s pat : List Char) : Int :=
  match firstMatch pat s with
  | some n => (n : Int)
  | none => -1

/-- Scan for non-overlapping occurrences of `pat`: `pos` is the current
offset in the original string, `skip` the number of characters still to be
jumped over after a previous match. -/
def findAllAux (pat : List Char) : List Char → Nat → Nat → List Nat
  | [], _, _ => []
  | c :: rest, pos, skip =>
    if skip ≠ 0 then findAllAux pat rest (pos + 1) (skip - 1)
    else if pat.isPrefixOf (c :: rest) then
      pos :: findAllAux pat rest (pos + 1) (pat.length - 1)
    else
      findAllAux pat rest (pos + 1) 0

/-- Start indices of all (non-overlapping, leftmost-first) occurrences of a
nonempty `pat` in `s`, as computed by `re.finditer` on a literal pattern. -/
def findAll (pat s : List Char) : List Nat :=
  findAllAux pat s 0 0

/-- Value of one hexadecimal digit. -/
def hexDigit? (c : Char) : Option Nat :=
  if '0' ≤ c ∧ c ≤ '9' then some (c.toNat - '0'.toNat)
  else if 'a' ≤ c ∧ c ≤ 'f' then some (c.toNat - 'a'.toNat + 10)
  else if 'A' ≤ c ∧ c ≤ 'F' then some (c.toNat - 'A'.toNat + 10)
  else none

/-- Parse a nonempty string of hex digits, most significant first. -/
def parseHexDigits : List Char → Option Nat
  | [] => none
  | [c] => hexDigit? c
  | c :: rest => do
    let d ← hexDigit? c
    let r ← parseHexDigits rest
    pure (d * 16 ^ rest.length + r)

/-- Value of one decimal digit. -/
def decDigit? (c : Char) : Option Nat :=
  if '0' ≤ c ∧ c ≤ '9' then some (c.toNat - '0'.toNat) else none

/-- Parse a nonempty string of decimal digits, most significant first. -/
def parseDecDigits : List Char → Option Nat
  | [] => none
  | [c] => decDigit? c
  | c :: rest => do
    let d ← decDigit? c
    let r ← parseDecDigits rest
    pure (d * 10 ^ rest.length + r)

/-- Python `int(s, 16)`: optional sign, optional `0x` prefix, hex digits.
(The whitespace/underscore forms Python also tolerates never occur in the
quote-delimited register payloads this decoder reads.)  `none` models the
`ValueError` Python raises on anything else. -/
def pyIntHex (s : List Char) : Option Int :=
  match s with
  | '-' :: rest => (pyIntHexCore rest).map (fun n => -(n : Int))
  | '+' :: rest => (pyIntHexCore rest).map (fun n => (n : Int))
  | rest => (pyIntHexCore rest).map (fun n => (n : Int))
where
  pyIntHexCore : List Char → Option Nat
    | '0' :: 'x' :: rest => parseHexDigits rest
    | '0' :: 'X' :: rest => parseHexDigits rest
    | rest => parseHexDigits rest

/-- Python `int(s)` on a decimal string; `none` models `ValueError`. -/
def pyIntDec (s : List Char) : Option Int :=
  match s with
  | '-' :: rest => (parseDecDigits rest).map (fun n => -(n : Int))
  | '+' :: rest => (parseDecDigits rest).map (fun n => (n : Int))
  | rest => (parseDecDigits rest).map (fun n => (n : Int))

/-- Python `bin(n)`: `0b` (after a sign for negatives) followed by the
binary digits of `|n|`, most significant first. -/
def pyBin (i : Int) : List Char :=
  if i < 0 then '-' :: '0' :: 'b' :: Nat.toDigits 2 (-i).toNat
  else '0' :: 'b' :: Nat.toDigits 2 i.toNat

/-- Python `s[i]` (a one-character string), `none` on `IndexError`. -/
def pyGetItem (s : List Char) (i : Int) : Option Char :=
  let j := if i < 0 then i + s.length else i
  if h : 0 ≤ j ∧ j.toNat < s.length then some (s.get ⟨j.toNat, h.2⟩) else none

/-- Python `round` on an exact value: round half to even. -/
def pyRound (q : ℚ) : Int :=
  let f := ⌊q⌋
  let r := q - f
  if r < 1 / 2 then f
  else if 1 / 2 < r then f + 1
  else if f % 2 = 0 then f else f + 1

/-- Python `int()` on a float: truncation toward zero. -/
def pyTrunc (q : ℚ) : Int :=
  if q < 0 then ⌈q⌉ else ⌊q⌋

/-- A Python scalar that is either a number or a string.  `strv none`
stands for the unspecified garbage string produced by
`np.empty(..).astype(str)` when a slot is never assigned: it is the decimal
representation of an arbitrary float, so it is never equal to an int under
`==` and never parses under `int()`. -/
inductive PyScalar
  | num (q : ℚ)
  | strv (s : Option (List Char))
deriving DecidableEq

/-- Python `==` between a scalar and the int `1`: values of different
types compare unequal rather than raising. -/
def pyEqOne : PyScalar → Bool
  | .num q => q = 1
  | .strv _ => false

/-! ## ApresHeader (src/impdar/lib/ApresData/ApresHeader.py) -/

/-- Exceptions the header decoder can raise. -/
inductive PyErr
  | valueError
  | indexError
  | attributeError
  | zeroDivisionError
  | typeError
deriving DecidableEq

/-- The ramp-direction tag (`self.rampDir`). -/
inductive RampDir
  | up
  | down
  | upDown
deriving DecidableEq

/-- A float-typed attribute value: a number or `np.nan`. -/
inductive PyNum
  | num (q : ℚ)
  | nan
deriving DecidableEq

/-- The attributes of an `ApresHeader` object touched by
`__init__`, `read_header`, `file_format` and `update_parameters`.
`none` means the attribute was never assigned. -/
structure ApresHeader where
  fsysclk : ℚ := 1000000000
  fs : PyScalar := .num 40000
  header : Option (List Char) := none
  /-- `file_format` assigns `self.fileformat` in the format-5 branch … -/
  fileformat : Option ℚ := none
  /-- … but `self.file_format` in the format-4/3/2 branches. -/
  file_format_attr : Option ℚ := none
  noDwellHigh : Option Int := none
  noDwellLow : Option Int := none
  startFreq : Option ℚ := none
  stopFreq : Option ℚ := none
  rampUpStep : Option ℚ := none
  rampDownStep : Option ℚ := none
  tstepUp : Option ℚ := none
  tstepDown : Option ℚ := none
  snum : Option Int := none
  nstepsDDS : Option Int := none
  chirpLength : Option ℚ := none
  nchirpSamples : Option Int := none
  K : Option ℚ := none
  rampDir : Option RampDir := none
  nchirpsPerPeriod : Option PyNum := none
deriving DecidableEq

/-- Literal `'Reg01'` etc. used by `update_parameters`. -/
def tokReg01 : List Char := ['R', 'e', 'g', '0', '1']

def tokReg0B : List Char := ['R', 'e', 'g', '0', 'B']

def tokReg0C : List Char := ['R', 'e', 'g', '0', 'C']

def tokReg0D : List Char := ['R', 'e', 'g', '0', 'D']

def tokReg0 : List Char := ['R', 'e', 'g', '0']

def tokEqQuote : List Char := ['=', '"']

def tokSamplingFreqMode : List Char :=
  ['S', 'a', 'm', 'p', 'l', 'i', 'n', 'g', 'F', 'r', 'e', 'q', 'M', 'o', 'd', 'e', '=']

def tokNADCSamples : List Char :=
  ['N', '_', 'A', 'D', 'C', '_', 'S', 'A', 'M', 'P', 'L', 'E', 'S', '=']

def tokSWIssue : List Char := ['S', 'W', '_', 'I', 's', 's', 'u', 'e', '=']

def tokSubBursts : List Char :=
  ['S', 'u', 'b', 'B', 'u', 'r', 's', 't', 's', ' ', 'i', 'n', ' ', 'b', 'u', 'r', 's', 't', ':']

def tokBurstHeader : List Char :=
  ['*', '*', '*', ' ', 'B', 'u', 'r', 's', 't', ' ', 'H', 'e', 'a', 'd', 'e', 'r', ' ', '*', '*', '*']

def tokRadarTime : List Char :=
  ['R', 'A', 'D', 'A', 'R', ' ', 'T', 'I', 'M', 'E']

/-- `file_format(self)`: keyword classification of the burst header, in
newest-first order.  The unknown-format branch merely *constructs*
`TypeError('Unknown file format - check file')` without raising it, so the
method returns normally having assigned nothing. -/
def file_format (st : ApresHeader) : ApresHeader × Option PyErr :=
  match st.header with
  | none => (st, some .attributeError)
  | some h =>
    if (firstMatch tokSWIssue h).isSome then
      ({ st with fileformat := some 5 }, none)
    else if (firstMatch tokSubBursts h).isSome then
      ({ st with file_format_attr := some 4 }, none)
    else if (firstMatch tokBurstHeader h).isSome then
      ({ st with file_format_attr := some 3 }, none)
    else if (firstMatch tokRadarTime h).isSome then
      ({ st with file_format_attr := some 2 }, none)
    else
      (st, none)

/-- The register value string: `loc3 = header[loc2[k]+2:].find('"')`,
`val = header[loc2[k]+2 : loc2[k]+loc3+2]`. -/
def regVal (h : List Char) (l2 : Nat) : List Char :=
  let loc3 := pyFind (pySliceFrom h ((l2 : Int) + 2)) ['"']
  pySlice h ((l2 : Int) + 2) ((l2 : Int) + loc3 + 2)

/-- One iteration of the register loop for the register whose identifier
slice is `case`, updating the state or raising.  Assignments happen in the
source order, so a failure can leave earlier fields of the same register
assigned. -/
def regStep (h : List Char) (l2 : Nat) (case : List Char) (st : ApresHeader) :
    ApresHeader × Option PyErr :=
  if case = tokReg01 then
    match pyIntHex (regVal h l2) with
    | none => (st, some .valueError)
    | some v =>
      let bits := (pyBin v).reverse
      match pyGetItem bits 18 with
      | none => (st, some .indexError)
      | some c18 =>
        match pyIntDec [c18] with
        | none => (st, some .valueError)
        | some hi =>
          let st := { st with noDwellHigh := some hi }
          match pyGetItem bits 17 with
          | none => (st, some .indexError)
          | some c17 =>
            match pyIntDec [c17] with
            | none => (st, some .valueError)
            | some lo => ({ st with noDwellLow := some lo }, none)
  else if case = tokReg0B then
    let val := regVal h l2
    match pyIntHex (pySliceFrom val 8) with
    | none => (st, some .valueError)
    | some a =>
      let st := { st with startFreq := some ((a : ℚ) * st.fsysclk / 4294967296) }
      match pyIntHex (pySlice val 0 8) with
      | none => (st, some .valueError)
      | some b => ({ st with stopFreq := some ((b : ℚ) * st.fsysclk / 4294967296) }, none)
  else if case = tokReg0C then
    let val := regVal h l2
    match pyIntHex (pySliceFrom val 8) with
    | none => (st, some .valueError)
    | some a =>
      let st := { st with rampUpStep := some ((a : ℚ) * st.fsysclk / 4294967296) }
      match pyIntHex (pySlice val 0 8) with
      | none => (st, some .valueError)
      | some b => ({ st with rampDownStep := some ((b : ℚ) * st.fsysclk / 4294967296) }, none)
  else if case = tokReg0D then
    let val := regVal h l2
    match pyIntHex (pySliceFrom val 4) with
    | none => (st, some .valueError)
    | some a =>
      let st := { st with tstepUp := some ((a : ℚ) * 4 / st.fsysclk) }
      match pyIntHex (pySlice val 0 4) with
      | none => (st, some .valueError)
      | some b => ({ st with tstepDown := some ((b : ℚ) * 4 / st.fsysclk) }, none)
  else
    (st, none)

/-- `for k in range(len(loc1)): case = header[loc1[k]:loc2[k]]; …`.
Accessing `loc2[k]` past the end of `loc2` is an `IndexError`. -/
def regLoop (h : List Char) : List Nat → List Nat → ApresHeader →
    ApresHeader × Option PyErr
  | [], _, st => (st, none)
  | _ :: _, [], st => (st, some .indexError)
  | l1 :: rest1, l2 :: rest2, st =>
    let case := pySlice h (l1 : Int) (l2 : Int)
    match regStep h l2 case st with
    | (st', none) => regLoop h rest1 rest2 st'
    | (st', some e) => (st', some e)

/-- `if string in header: …` extraction of one scalar token: the substring
from the end of the token to the next backslash.  `none` = the
`output[i]` slot keeps its `np.empty(..).astype(str)` garbage. -/
def extractScalarTok (h tok : List Char) : Option (List Char) :=
  match firstMatch tok h with
  | none => none
  | some ss =>
    let se := pyFind (pySliceFrom h (ss : Int)) ['\\']
    some (pySlice h ((ss : Int) + tok.length) (se + (ss : Int)))

/-- First half of the derived-parameter tail of `update_parameters`, from
`self.fs = output[0]` through the chirp-length clamp.  Every attribute
read checks for presence (`AttributeError`), every division checks for a
zero divisor (`ZeroDivisionError`), mirroring the Python runtime. -/
def derivedTailA (out0 out1 : Option (List Char)) (st : ApresHeader) :
    ApresHeader × Option PyErr :=
  -- self.fs = output[0]; if self.fs == 1: self.fs = 8e4 else: self.fs = 4e4
  let st := { st with fs := .strv out0 }
  let st :=
    if pyEqOne st.fs then { st with fs := .num 80000 }
    else { st with fs := .num 40000 }
  -- self.snum = int(output[1]); garbage (an unassigned slot) is the decimal
  -- representation of a float and never parses as an int
  match out1.bind pyIntDec with
  | none => (st, some .valueError)
  | some sn =>
  let st := { st with snum := some sn }
  -- self.nstepsDDS = round(abs((self.stopFreq - self.startFreq)/self.rampUpStep))
  match st.stopFreq with
  | none => (st, some .attributeError)
  | some stopF =>
  match st.startFreq with
  | none => (st, some .attributeError)
  | some startF =>
  match st.rampUpStep with
  | none => (st, some .attributeError)
  | some rus =>
  if rus = 0 then (st, some .zeroDivisionError) else
  let nsteps := pyRound |(stopF - startF) / rus|
  let st := { st with nstepsDDS := some nsteps }
  -- self.chirpLength = int(self.nstepsDDS * self.tstepUp)
  match st.tstepUp with
  | none => (st, some .attributeError)
  | some tsu =>
  let cl := (pyTrunc ((nsteps : ℚ) * tsu) : ℚ)
  let st := { st with chirpLength := some cl }
  -- self.nchirpSamples = round(self.chirpLength * self.fs)
  match st.fs with
  | .strv _ => (st, some .typeError)
  | .num fsv =>
  let st := { st with nchirpSamples := some (pyRound (cl * fsv)) }
  -- if self.nchirpSamples > self.snum: self.chirpLength = self.snum / self.fs
  if pyRound (cl * fsv) > sn then
    ({ st with chirpLength := some ((sn : ℚ) / fsv) }, none)
  else (st, none)

/-- Second half of the derived-parameter tail of `update_parameters`, from
the chirp-gradient computation to the no-dwell override. -/
def derivedTailB (st : ApresHeader) : ApresHeader × Option PyErr :=
  -- self.K = 2.*np.pi*(self.rampUpStep/self.tstepUp); np.pi is irrational,
  -- so K is stored modulo the constant factor 2π, which no claim inspects
  match st.rampUpStep with
  | none => (st, some .attributeError)
  | some rus =>
  match st.tstepUp with
  | none => (st, some .attributeError)
  | some tsu =>
  if tsu = 0 then (st, some .zeroDivisionError) else
  let st := { st with K := some (rus / tsu) }
  -- if self.stopFreq > 400e6: 'down' else: 'up'
  match st.stopFreq with
  | none => (st, some .attributeError)
  | some stopF =>
  let st :=
    if stopF > 400000000 then { st with rampDir := some .down }
    else { st with rampDir := some .up }
  -- if self.noDwellHigh and self.noDwellLow: … (short-circuit `and`)
  match st.noDwellHigh with
  | none => (st, some .attributeError)
  | some ndh =>
  if ndh = 0 then (st, none) else
  match st.noDwellLow with
  | none => (st, some .attributeError)
  | some ndl =>
  if ndl = 0 then (st, none) else
  ({ st with rampDir := some .upDown, nchirpsPerPeriod := some .nan }, none)

/-- The full derived-parameter tail: the two halves in source order. -/
def derivedTail (out0 out1 : Option (List Char)) (st : ApresHeader) :
    ApresHeader × Option PyErr :=
  match derivedTailA out0 out1 st with
  | (st1, some e) => (st1, some e)
  | (st1, none) => derivedTailB st1

/-- `update_parameters(self)`: find all `Reg0`/`="` token positions, run
the register loop, extract the two scalar tokens, and compute the derived
parameters. -/
def update_parameters (st : ApresHeader) : ApresHeader × Option PyErr :=
  match st.header with
  | none => (st, some .attributeError)
  | some h =>
    let loc1 := findAll tokReg0 h
    let loc2 := findAll tokEqQuote h
    match regLoop h loc1 loc2 st with
    | (st', some e) => (st', some e)
    | (st', none) =>
      derivedTail (extractScalarTok h tokSamplingFreqMode)
        (extractScalarTok h tokNADCSamples) st'

/-! ## ApresData and check_attrs (src/impdar/lib/ApresData/__init__.py) -/

/-- State of one Python attribute slot: never assigned (`hasattr` false),
assigned `None`, or assigned a non-`None` value. -/
inductive PyAttr
  | missing
  | pynone
  | set
deriving DecidableEq

/-- The attribute names `check_attrs` iterates over, plus `data_dtype`. -/
inductive ApresAttr
  | data
  | decday
  | dt
  | lat
  | long
  | snum
  | tnum
  | trace_num
  | travel_time
  | x_coord
  | y_coord
  | elev
  | fn
  | file_read_code
deriving DecidableEq

/-- `ApresData.attrs_guaranteed`. -/
def attrs_guaranteed : List ApresAttr :=
  [.data, .decday, .dt, .lat, .long, .snum, .tnum, .trace_num, .travel_time]

/-- `ApresData.attrs_optional`. -/
def attrs_optional : List ApresAttr :=
  [.x_coord, .y_coord, .elev, .fn, .file_read_code]

/-- The slot states of an `ApresData` object, one per attribute that
`check_attrs` can touch. -/
structure ApresData where
  data : PyAttr
  decday : PyAttr
  dt : PyAttr
  lat : PyAttr
  long : PyAttr
  snum : PyAttr
  tnum : PyAttr
  trace_num : PyAttr
  travel_time : PyAttr
  x_coord : PyAttr
  y_coord : PyAttr
  elev : PyAttr
  fn : PyAttr
  file_read_code : PyAttr
  data_dtype : PyAttr
deriving DecidableEq

/-- `getattr` on the modelled attributes. -/
def ApresData.getAttr (m : ApresData) : ApresAttr → PyAttr
  | .data => m.data
  | .decday => m.decday
  | .dt => m.dt
  | .lat => m.lat
  | .long => m.long
  | .snum => m.snum
  | .tnum => m.tnum
  | .trace_num => m.trace_num
  | .travel_time => m.travel_time
  | .x_coord => m.x_coord
  | .y_coord => m.y_coord
  | .elev => m.elev
  | .fn => m.fn
  | .file_read_code => m.file_read_code

/-- The `ImpdarError` raised by `check_attrs`, carrying the offending
attribute. -/
inductive ImpdarErr
  | incomplete (a : ApresAttr)
deriving DecidableEq

/-- First required attribute that is missing or `None`, in list order. -/
def firstBadRequired (m : ApresData) : List ApresAttr → Option ApresAttr
  | [] => none
  | a :: rest =>
    match m.getAttr a with
    | .missing => some a
    | .pynone => some a
    | .set => firstBadRequired m rest

/-- First optional attribute that is fully absent (`hasattr` false), in
list order; `None` is acceptable here. -/
def firstBadOptional (m : ApresData) : List ApresAttr → Option ApresAttr
  | [] => none
  | a :: rest =>
    match m.getAttr a with
    | .missing => some a
    | _ => firstBadOptional m rest

/-- `check_attrs(self)`: every guaranteed attribute must exist and be
non-`None`; every optional attribute must at least exist; finally
`data_dtype` is filled in from `data.dtype` if absent or `None` (at that
point `data` is known non-`None`). -/
def check_attrs (m : ApresData) : ApresData × Option ImpdarErr :=
  match firstBadRequired m attrs_guaranteed with
  | some a => (m, some (.incomplete a))
  | none =>
    match firstBadOptional m attrs_optional with
    | some a => (m, some (.incomplete a))
    | none =>
      if m.data_dtype = .missing ∨ m.data_dtype = .pynone then
        ({ m with data_dtype := .set }, none)
      else
        (m, none)

/-- `firstBadRequired` finds the (unique) bad attribute when all others
are set. -/
lemma firstBadRequired_eq_of (m : ApresData) (l : List ApresAttr) (bad : ApresAttr)
    (hmem : bad ∈ l) (hbad : m.getAttr bad = .pynone)
    (hrest : ∀ a ∈ l, a ≠ bad → m.getAttr a = .set) :
    firstBadRequired m l = some bad := by
  induction l with
  | nil => cases hmem
  | cons a rest ih =>
    by_cases hab : a = bad
    · subst hab
      simp [firstBadRequired, hbad]
    · have ha := hrest a (by simp) hab
      have hmem' : bad ∈ rest := by
        rcases List.mem_cons.mp hmem with h | h
        · exact absurd h.symm hab
        · exact h
      simp [firstBadRequired, ha,
        ih hmem' (fun a' ha' hne => hrest a' (List.mem_cons_of_mem _ ha') hne)]

/-- `firstBadRequired` returns `none` when every attribute in the list is
set. -/
lemma firstBadRequired_none (m : ApresData) (l : List ApresAttr)
    (h : ∀ a ∈ l, m.getAttr a = .set) :
    firstBadRequired m l = none := by
  induction l with
  | nil => rfl
  | cons a rest ih =>
    have := h a (by simp)
    simp [firstBadRequired, this, ih (fun a' ha' => h a' (List.mem_cons_of_mem _ ha'))]

/-- `firstBadOptional` returns `none` when every attribute in the list is
at least declared. -/
lemma firstBadOptional_none (m : ApresData) (l : List ApresAttr)
    (h : ∀ a ∈ l, m.getAttr a ≠ .missing) :
    firstBadOptional m l = none := by
  induction l with
  | nil => rfl
  | cons a rest ih =>
    have ha := h a (by simp)
    have ih' := ih (fun a' ha' => h a' (List.mem_cons_of_mem _ ha'))
    cases hv : m.getAttr a <;> simp [firstBadOptional, hv, ih'] <;> exact ha hv

/-! ## Claims C2, C3, C4 -/

/-- **C2**: `check_attrs` on a model whose `dt` is set to `None` while
every other attribute is properly declared raises `IncompleteRecordError`
(an `ImpdarError` naming `dt`); on a model with all nine required
attributes non-`None` and all five optional attributes declared (possibly
as the declared-but-empty default, i.e. `None`), it returns without
raising. -/
theorem check_attrs_dt_and_complete (m m' : ApresData)
    (hm : m.dt = .pynone)
    (hreq : ∀ a ∈ attrs_guaranteed, a ≠ .dt → m.getAttr a = .set)
    (hopt : ∀ a ∈ attrs_optional, m.getAttr a ≠ .missing)
    (hreq' : ∀ a ∈ attrs_guaranteed, m'.getAttr a = .set)
    (hopt' : ∀ a ∈ attrs_optional, m'.getAttr a ≠ .missing) :
    (check_attrs m).2 = some (.incomplete .dt) ∧ (check_attrs m').2 = none := by
  constructor
  · have hbad : firstBadRequired m attrs_guaranteed = some .dt := by
      refine firstBadRequired_eq_of m _ .dt (by simp [attrs_guaranteed]) ?_ hreq
      show m.dt = .pynone
      exact hm
    simp [check_attrs, hbad]
  · have hr : firstBadRequired m' attrs_guaranteed = none :=
      firstBadRequired_none m' _ hreq'
    have ho : firstBadOptional m' attrs_optional = none :=
      firstBadOptional_none m' _ hopt'
    simp only [check_attrs, hr, ho]
    split <;> rfl

/-- Witness for C2: a model with `dt = None` and everything else set, and a
fully populated model. -/
theorem check_attrs_dt_and_complete_witness :
    (check_attrs (ApresData.mk .set .set .pynone .set .set .set .set .set .set
        .set .set .set .set .set .set)).2 = some (.incomplete .dt) ∧
    (check_attrs (ApresData.mk .set .set .set .set .set .set .set .set .set
        .set .set .set .pynone .pynone .missing)).2 = none := by
  refine ⟨(check_attrs_dt_and_complete _ (ApresData.mk .set .set .set .set .set
      .set .set .set .set .set .set .set .pynone .pynone .missing) rfl ?_ ?_ ?_ ?_).1,
    (check_attrs_dt_and_complete (ApresData.mk .set .set .pynone .set .set .set
      .set .set .set .set .set .set .set .set .set) _ rfl ?_ ?_ ?_ ?_).2⟩ <;>
    decide

/-- `regStep` never touches the `fs` attribute. -/
lemma regStep_fs (h : List Char) (l2 : Nat) (case : List Char) (st : ApresHeader) :
    ((regStep h l2 case st).1).fs = st.fs := by
  unfold regStep
  repeat' (first | split | dsimp only)

/-- `regLoop` never touches the `fs` attribute. -/
lemma regLoop_fs (h : List Char) (l1 l2 : List Nat) (st : ApresHeader) :
    ((regLoop h l1 l2 st).1).fs = st.fs := by
  induction l1 generalizing l2 st with
  | nil => rfl
  | cons a rest ih =>
    cases l2 with
    | nil => rfl
    | cons b rest2 =>
      have hstep := regStep_fs h b (pySlice h (a : Int) (b : Int)) st
      unfold regLoop
      dsimp only
      rcases hs : regStep h b (pySlice h (a : Int) (b : Int)) st with ⟨st', e⟩
      rw [hs] at hstep
      cases e with
      | none => dsimp only; rw [ih rest2 st']; exact hstep
      | some err => exact hstep

/-- After the `self.fs = output[0]` / `if self.fs == 1` stage, `fs` is the
number 40000 and is never reassigned in the rest of `derivedTailA`. -/
lemma derivedTailA_fs (out0 out1 : Option (List Char)) (st : ApresHeader) :
    ((derivedTailA out0 out1 st).1).fs = .num 40000 := by
  unfold derivedTailA
  simp only [pyEqOne, Bool.false_eq_true, if_false]
  repeat' (first | split | dsimp only)
  all_goals rfl

/-- `derivedTailB` only assigns `K`, `rampDir` and `nchirpsPerPeriod`:
every other attribute is untouched. -/
lemma derivedTailB_untouched (st : ApresHeader) :
    ((derivedTailB st).1).fs = st.fs ∧
    ((derivedTailB st).1).header = st.header ∧
    ((derivedTailB st).1).snum = st.snum ∧
    ((derivedTailB st).1).nstepsDDS = st.nstepsDDS ∧
    ((derivedTailB st).1).chirpLength = st.chirpLength ∧
    ((derivedTailB st).1).nchirpSamples = st.nchirpSamples ∧
    ((derivedTailB st).1).stopFreq = st.stopFreq ∧
    ((derivedTailB st).1).startFreq = st.startFreq ∧
    ((derivedTailB st).1).rampUpStep = st.rampUpStep ∧
    ((derivedTailB st).1).tstepUp = st.tstepUp ∧
    ((derivedTailB st).1).noDwellHigh = st.noDwellHigh ∧
    ((derivedTailB st).1).noDwellLow = st.noDwellLow := by
  unfold derivedTailB
  repeat' (first | split | dsimp only)
  all_goals exact ⟨rfl, rfl, rfl, rfl, rfl, rfl, rfl, rfl, rfl, rfl, rfl, rfl⟩

/-- `fs` after the whole derived tail is the number 40000. -/
lemma derivedTail_fs (out0 out1 : Option (List Char)) (st : ApresHeader) :
    ((derivedTail out0 out1 st).1).fs = .num 40000 := by
  unfold derivedTail
  have hA := derivedTailA_fs out0 out1 st
  rcases hr : derivedTailA out0 out1 st with ⟨st1, e⟩
  rw [hr] at hA
  cases e with
  | none => dsimp only; rw [(derivedTailB_untouched st1).1]; exact hA
  | some err => exact hA

/-- A header blob that literally contains `SamplingFreqMode=1`: the mode
flag decodes to the string `'1'`. -/
def hdrFsMode1 : List Char :=
  tokSamplingFreqMode ++ ['1', '\\'] ++ tokNADCSamples ++ ['1', '0', '\\']

/-- **C3** (code bug): the sampling-rate resolution in
`update_parameters` is a dead two-way branch.  `output[0]` is a *string*
(`numpy` string array slot), so `self.fs == 1` compares a string to the
int `1` and is always false: the sampling rate resolves to 40 kHz for
*every* header, including one whose decoded mode flag is exactly `1` —
never to 80 kHz.  The docstring ("Checks for a sampling frequency of 40
or 80 KHz") and the commented-out original show the 80 kHz branch was
intended to be reachable. -/
theorem update_parameters_fs_always_40k :
    (∀ st : ApresHeader,
      ((update_parameters st).1).fs = .num 40000 ∨ ((update_parameters st).1).fs = st.fs) ∧
    ((update_parameters { header := some hdrFsMode1 }).1).fs = .num 40000 := by
  constructor
  · intro st
    unfold update_parameters
    cases hh : st.header with
    | none => right; rfl
    | some h =>
      dsimp only
      have hfs := regLoop_fs h (findAll tokReg0 h) (findAll tokEqQuote h) st
      rcases hr : regLoop h (findAll tokReg0 h) (findAll tokEqQuote h) st with ⟨st', e⟩
      rw [hr] at hfs
      cases e with
      | none => left; exact derivedTail_fs _ _ st'
      | some err => right; exact hfs
  · decide

/-- **C4** (code bug): on a header blob containing none of the four
classification tokens, `file_format` does *not* raise: the unknown-format
branch constructs `TypeError('Unknown file format - check file')` but
never raises it, so the method returns normally with the state unchanged —
neither `fileformat` nor `file_format` is ever assigned.  The claim (and
the obvious intent of the `else` branch) is that an `UnknownFormatError`
is raised. -/
theorem file_format_none_returns_normally (h : List Char) (st : ApresHeader)
    (hh : st.header = some h)
    (h5 : firstMatch tokSWIssue h = none)
    (h4 : firstMatch tokSubBursts h = none)
    (h3 : firstMatch tokBurstHeader h = none)
    (h2 : firstMatch tokRadarTime h = none) :
    file_format st = (st, none) := by
  simp [file_format, hh, h5, h4, h3, h2]

/-- Witness for C4: the blob `'hello'` contains no classification token;
`file_format` on a fresh header object returns normally, assigning no
format tag. -/
theorem file_format_none_returns_normally_witness :
    file_format { header := some ['h', 'e', 'l', 'l', 'o'] } =
      ({ header := some ['h', 'e', 'l', 'l', 'o'] }, none) :=
  file_format_none_returns_normally ['h', 'e', 'l', 'l', 'o'] _ rfl
    (by decide) (by decide) (by decide) (by decide)

/-- Python `round` is the identity on integral values. -/
lemma pyRound_intCast (n : ℤ) : pyRound ((n : ℚ)) = n := by
  unfold pyRound
  simp [Int.floor_intCast]

/-- An integral product bounded by its Python rounding is bounded as a
rational. -/
lemma intCast_mul_le_of_pyRound_le {t sn : ℤ} (h : pyRound ((t : ℚ) * 40000) ≤ sn) :
    (t : ℚ) * 40000 ≤ (sn : ℚ) := by
  have hcast : ((t * 40000 : ℤ) : ℚ) = (t : ℚ) * 40000 := by push_cast; ring
  rw [← hcast, pyRound_intCast] at h
  rw [← hcast]
  exact_mod_cast h

/-- Success shape of `derivedTailA`: on the no-clamp branch the chirp
length is the truncated nominal value whose rounded product with `fs` is
within the sample budget; on the clamp branch it is `snum / fs`.  Either
way `chirpLength * 40000 ≤ snum`. -/
lemma derivedTailA_success (out0 out1 : Option (List Char)) (st st1 : ApresHeader)
    (h : derivedTailA out0 out1 st = (st1, none)) :
    ∃ sn cl, st1.snum = some sn ∧ st1.fs = .num 40000 ∧
      st1.chirpLength = some cl ∧ cl * 40000 ≤ (sn : ℚ) := by
  unfold derivedTailA at h
  simp only [pyEqOne, Bool.false_eq_true, if_false] at h
  repeat' (first | (split at h) | (dsimp only at h))
  all_goals injection h with h1 h2
  all_goals first
  | exact Option.noConfusion h2
  | skip
  all_goals subst h1
  all_goals refine ⟨_, _, rfl, rfl, rfl, ?_⟩
  -- clamp branch: chirpLength = snum / fs, so the product is exactly snum
  · rw [div_mul_cancel₀ _ (by norm_num : (40000 : ℚ) ≠ 0)]
  -- no-clamp branch: round(chirpLength * fs) ≤ snum and the product is
  -- integral, so it equals its rounding
  · rename_i hle
    exact intCast_mul_le_of_pyRound_le (not_lt.mp hle)

/-- **C6**: whenever `update_parameters` completes without raising (in
particular on every valid four-register header blob), the final chirp
length times the sampling rate (always the number 40000, cf. C3) is at
most the declared ADC sample budget `snum` — the clamp branch enforces
the bound exactly, the no-clamp branch by the comparison it just made. -/
theorem update_parameters_chirp_budget (st : ApresHeader)
    (h : (update_parameters st).2 = none) :
    ∃ sn cl, (update_parameters st).1.snum = some sn ∧
      (update_parameters st).1.fs = .num 40000 ∧
      (update_parameters st).1.chirpLength = some cl ∧
      cl * 40000 ≤ (sn : ℚ) := by
  unfold update_parameters at h ⊢
  cases hh : st.header with
  | none => rw [hh] at h; exact Option.noConfusion h
  | some h0 =>
    rw [hh] at h
    dsimp only at h ⊢
    rcases hr : regLoop h0 (findAll tokReg0 h0) (findAll tokEqQuote h0) st with ⟨st1, e1⟩
    rw [hr] at h
    cases e1 with
    | some err => exact Option.noConfusion h
    | none =>
      dsimp only at h ⊢
      unfold derivedTail at h ⊢
      rcases ha : derivedTailA (extractScalarTok h0 tokSamplingFreqMode)
          (extractScalarTok h0 tokNADCSamples) st1 with ⟨st2, e2⟩
      rw [ha] at h
      cases e2 with
      | some err => exact Option.noConfusion h
      | none =>
        dsimp only at h ⊢
        obtain ⟨sn, cl, hsn, hfs, hcl, hle⟩ :=
          derivedTailA_success _ _ st1 st2 ha
        obtain ⟨bfs, _, bsnum, _, bcl, _⟩ := derivedTailB_untouched st2
        exact ⟨sn, cl, by rw [bsnum, hsn], by rw [bfs, hfs], by rw [bcl, hcl], hle⟩

/-- A complete well-formed header blob: four registers, sampling mode and
sample count.  `Reg01` decodes no-dwell bits both `0`; `Reg0B` encodes
start 0xABCDEF⋅10⁹/2³², stop 0x1234567⋅10⁹/2³²; `Reg0C` a nonzero ramp
step; `Reg0D` a nonzero time step.  `N_ADC_SAMPLES=40000` makes the
nominal chirp sample count exceed the budget, exercising the clamp. -/
def hdrFull : List Char :=
  tokReg01 ++ ['=', '"', '0', '0', '0', '8', '0', '0', '0', '0', '"'] ++
  tokReg0B ++ ['=', '"', '0', '1', '2', '3', '4', '5', '6', '7',
               '0', '0', 'A', 'B', 'C', 'D', 'E', 'F', '"'] ++
  tokReg0C ++ ['=', '"', '0', '0', '0', '0', '0', '0', '0', '1',
               '0', '0', '0', '0', '0', '0', '0', '1', '"'] ++
  tokReg0D ++ ['=', '"', '0', '0', '6', '4', '0', '1', '2', 'C', '"'] ++
  tokSamplingFreqMode ++ ['0', '\\'] ++
  tokNADCSamples ++ ['4', '0', '0', '0', '0', '\\']

/-- The `ApresHeader` object as it stands after `__init__` and
`read_header`: only the defaults plus the captured raw header. -/
def initApres (h : List Char) : ApresHeader :=
  { header := some h }

-- The Batteries rational operations are `@[irreducible]`, which blocks
-- `decide` on concrete witness computations; re-marking them semireducible
-- locally restores kernel-visible unfolding for this witness only.
section RatEval1
set_option allowUnsafeReducibility true
attribute [local semireducible] Rat.mul Rat.add Rat.inv Rat.sub Rat.neg Rat.div

set_option maxRecDepth 4000 in
/-- Witness for C6: on `hdrFull` the decode succeeds and the bound holds. -/
theorem update_parameters_chirp_budget_witness :
    ∃ sn cl, (update_parameters (initApres hdrFull)).1.snum = some sn ∧
      (update_parameters (initApres hdrFull)).1.fs = .num 40000 ∧
      (update_parameters (initApres hdrFull)).1.chirpLength = some cl ∧
      cl * 40000 ≤ (sn : ℚ) :=
  update_parameters_chirp_budget (initApres hdrFull) (by decide)

end RatEval1

/-- `regStep` never touches the derived attributes (nor `header` or
`snum`): it only assigns register-decoded fields. -/
lemma regStep_untouched (h : List Char) (l2 : Nat) (case : List Char) (st : ApresHeader) :
    ((regStep h l2 case st).1).header = st.header ∧
    ((regStep h l2 case st).1).snum = st.snum ∧
    ((regStep h l2 case st).1).nstepsDDS = st.nstepsDDS ∧
    ((regStep h l2 case st).1).chirpLength = st.chirpLength ∧
    ((regStep h l2 case st).1).nchirpSamples = st.nchirpSamples ∧
    ((regStep h l2 case st).1).K = st.K ∧
    ((regStep h l2 case st).1).rampDir = st.rampDir ∧
    ((regStep h l2 case st).1).nchirpsPerPeriod = st.nchirpsPerPeriod := by
  unfold regStep
  repeat' (first | split | dsimp only)
  all_goals exact ⟨rfl, rfl, rfl, rfl, rfl, rfl, rfl, rfl⟩

/-- `regLoop` never touches the derived attributes. -/
lemma regLoop_untouched (h : List Char) (l1 l2 : List Nat) (st : ApresHeader) :
    ((regLoop h l1 l2 st).1).header = st.header ∧
    ((regLoop h l1 l2 st).1).snum = st.snum ∧
    ((regLoop h l1 l2 st).1).nstepsDDS = st.nstepsDDS ∧
    ((regLoop h l1 l2 st).1).chirpLength = st.chirpLength ∧
    ((regLoop h l1 l2 st).1).nchirpSamples = st.nchirpSamples ∧
    ((regLoop h l1 l2 st).1).K = st.K ∧
    ((regLoop h l1 l2 st).1).rampDir = st.rampDir ∧
    ((regLoop h l1 l2 st).1).nchirpsPerPeriod = st.nchirpsPerPeriod := by
  induction l1 generalizing l2 st with
  | nil => exact ⟨rfl, rfl, rfl, rfl, rfl, rfl, rfl, rfl⟩
  | cons a rest ih =>
    cases l2 with
    | nil => exact ⟨rfl, rfl, rfl, rfl, rfl, rfl, rfl, rfl⟩
    | cons b rest2 =>
      have hstep := regStep_untouched h b (pySlice h (a : Int) (b : Int)) st
      unfold regLoop
      dsimp only
      rcases hs : regStep h b (pySlice h (a : Int) (b : Int)) st with ⟨st', e⟩
      rw [hs] at hstep
      cases e with
      | none =>
        dsimp only
        have hrest := ih rest2 st'
        exact ⟨hrest.1.trans hstep.1, hrest.2.1.trans hstep.2.1,
          hrest.2.2.1.trans hstep.2.2.1, hrest.2.2.2.1.trans hstep.2.2.2.1,
          hrest.2.2.2.2.1.trans hstep.2.2.2.2.1, hrest.2.2.2.2.2.1.trans hstep.2.2.2.2.2.1,
          hrest.2.2.2.2.2.2.1.trans hstep.2.2.2.2.2.2.1,
          hrest.2.2.2.2.2.2.2.trans hstep.2.2.2.2.2.2.2⟩
      | some err => exact hstep

/-- `derivedTailA` never touches the register-decoded attributes, `K`,
`rampDir` or `nchirpsPerPeriod`. -/
lemma derivedTailA_untouched (out0 out1 : Option (List Char)) (st : ApresHeader) :
    ((derivedTailA out0 out1 st).1).header = st.header ∧
    ((derivedTailA out0 out1 st).1).noDwellHigh = st.noDwellHigh ∧
    ((derivedTailA out0 out1 st).1).noDwellLow = st.noDwellLow ∧
    ((derivedTailA out0 out1 st).1).startFreq = st.startFreq ∧
    ((derivedTailA out0 out1 st).1).stopFreq = st.stopFreq ∧
    ((derivedTailA out0 out1 st).1).rampUpStep = st.rampUpStep ∧
    ((derivedTailA out0 out1 st).1).tstepUp = st.tstepUp ∧
    ((derivedTailA out0 out1 st).1).K = st.K ∧
    ((derivedTailA out0 out1 st).1).rampDir = st.rampDir ∧
    ((derivedTailA out0 out1 st).1).nchirpsPerPeriod = st.nchirpsPerPeriod := by
  unfold derivedTailA
  repeat' (first | split | dsimp only)
  all_goals exact ⟨rfl, rfl, rfl, rfl, rfl, rfl, rfl, rfl, rfl, rfl⟩

/-- A successful `regStep` either leaves both no-dwell flags untouched or
(the `Reg01` branch) assigns both. -/
lemma regStep_dwell_pair (h : List Char) (l2 : Nat) (case : List Char)
    (st st' : ApresHeader) (e : Option PyErr)
    (heq : regStep h l2 case st = (st', e)) (hsucc : e = none) :
    (st'.noDwellHigh = st.noDwellHigh ∧ st'.noDwellLow = st.noDwellLow) ∨
    (∃ hi lo, st'.noDwellHigh = some hi ∧ st'.noDwellLow = some lo) := by
  subst hsucc
  unfold regStep at heq
  repeat' (first | (split at heq) | (dsimp only at heq))
  all_goals injection heq with h1 h2
  all_goals first
  | exact Option.noConfusion h2
  | skip
  all_goals subst h1
  all_goals first
  | exact Or.inr ⟨_, _, rfl, rfl⟩
  | exact Or.inl ⟨rfl, rfl⟩

/-- Either both no-dwell flags survive a successful `regLoop` as they
started, or both end up assigned. -/
lemma regLoop_dwell_pair (h : List Char) (l1 l2 : List Nat) (st st' : ApresHeader)
    (heq : regLoop h l1 l2 st = (st', none))
    (hst : (st.noDwellHigh = none ∧ st.noDwellLow = none) ∨
      (∃ hi lo, st.noDwellHigh = some hi ∧ st.noDwellLow = some lo)) :
    (st'.noDwellHigh = none ∧ st'.noDwellLow = none) ∨
    (∃ hi lo, st'.noDwellHigh = some hi ∧ st'.noDwellLow = some lo) := by
  induction l1 generalizing l2 st with
  | nil =>
    injection heq with h1 h2
    subst h1
    exact hst
  | cons a rest ih =>
    cases l2 with
    | nil => injection heq with h1 h2; exact Option.noConfusion h2
    | cons b rest2 =>
      unfold regLoop at heq
      dsimp only at heq
      rcases hs : regStep h b (pySlice h (a : Int) (b : Int)) st with ⟨st1, e1⟩
      rw [hs] at heq
      cases e1 with
      | some err => injection heq with h1 h2; exact Option.noConfusion h2
      | none =>
        dsimp only at heq
        rcases regStep_dwell_pair h b _ st st1 none hs rfl with ⟨hh, hl⟩ | ⟨hi, lo, hh, hl⟩
        · exact ih rest2 st1 heq (by
            rcases hst with ⟨a1, a2⟩ | ⟨hi, lo, a1, a2⟩
            · exact Or.inl ⟨hh.trans a1, hl.trans a2⟩
            · exact Or.inr ⟨hi, lo, hh.trans a1, hl.trans a2⟩)
        · exact ih rest2 st1 heq (Or.inr ⟨hi, lo, hh, hl⟩)

/-- Success shape of `derivedTailB`: the state must carry a stop frequency
and a no-dwell-high flag; the ramp direction is `down`/`up` by the 400 MHz
threshold unless both no-dwell flags are nonzero, in which case it is
`upDown` and sweeps-per-period becomes NaN. -/
lemma derivedTailB_success (st st1 : ApresHeader) (h : derivedTailB st = (st1, none)) :
    ∃ sf ndh, st.stopFreq = some sf ∧ st.noDwellHigh = some ndh ∧
      ((ndh = 0 ∧
         st1.rampDir = some (if sf > 400000000 then RampDir.down else RampDir.up) ∧
         st1.nchirpsPerPeriod = st.nchirpsPerPeriod) ∨
       (∃ ndl, ndh ≠ 0 ∧ st.noDwellLow = some ndl ∧
         ((ndl = 0 ∧
            st1.rampDir = some (if sf > 400000000 then RampDir.down else RampDir.up) ∧
            st1.nchirpsPerPeriod = st.nchirpsPerPeriod) ∨
          (ndl ≠ 0 ∧ st1.rampDir = some RampDir.upDown ∧
            st1.nchirpsPerPeriod = some PyNum.nan)))) := by
  unfold derivedTailB at h
  repeat'
    (first
    | (simp only [apply_ite ApresHeader.noDwellHigh, apply_ite ApresHeader.noDwellLow,
        ite_self] at h)
    | (dsimp only at h)
    | (split at h))
  all_goals injection h with h1 h2
  all_goals first
  | exact Option.noConfusion h2
  | skip
  all_goals subst h1
  all_goals refine ⟨_, _, by assumption, by assumption, ?_⟩
  all_goals first
  | (left
     refine ⟨by assumption, ?_, ?_⟩
     · first
       | rw [if_pos (by assumption)]
       | rw [if_neg (by assumption)]
     · first
       | rfl
       | simp only [apply_ite ApresHeader.nchirpsPerPeriod, ite_self])
  | (right
     refine ⟨_, by assumption, by assumption, ?_⟩
     first
     | (left
        refine ⟨by assumption, ?_, ?_⟩
        · first
          | rw [if_pos (by assumption)]
          | rw [if_neg (by assumption)]
        · first
          | rfl
          | simp only [apply_ite ApresHeader.nchirpsPerPeriod, ite_self])
     | (right; exact ⟨by assumption, rfl, rfl⟩))

/-- **C7**: starting from a freshly constructed header object whose blob
decodes without raising, the ramp-direction tag is `down` when the decoded
stop frequency exceeds 400 MHz and `up` otherwise, overridden to `upDown`
exactly when both decoded no-dwell flags are nonzero — in which case
sweeps-per-period is `np.nan` (and in no other case is it assigned at
all, so it is never zero). -/
theorem update_parameters_rampDir (hdr : List Char)
    (h : (update_parameters (initApres hdr)).2 = none) :
    ∃ sf ndh ndl,
      (update_parameters (initApres hdr)).1.stopFreq = some sf ∧
      (update_parameters (initApres hdr)).1.noDwellHigh = some ndh ∧
      (update_parameters (initApres hdr)).1.noDwellLow = some ndl ∧
      (update_parameters (initApres hdr)).1.rampDir =
        some (if ndh ≠ 0 ∧ ndl ≠ 0 then RampDir.upDown
              else if sf > 400000000 then RampDir.down else RampDir.up) ∧
      (update_parameters (initApres hdr)).1.nchirpsPerPeriod =
        (if ndh ≠ 0 ∧ ndl ≠ 0 then some PyNum.nan else none) := by
  unfold update_parameters at h ⊢
  have hhdr : (initApres hdr).header = some hdr := rfl
  rw [hhdr] at h ⊢
  dsimp only at h ⊢
  rcases hr : regLoop hdr (findAll tokReg0 hdr) (findAll tokEqQuote hdr)
      (initApres hdr) with ⟨st1, e1⟩
  rw [hr] at h
  cases e1 with
  | some err => exact Option.noConfusion h
  | none =>
    dsimp only at h ⊢
    unfold derivedTail at h ⊢
    rcases ha : derivedTailA (extractScalarTok hdr tokSamplingFreqMode)
        (extractScalarTok hdr tokNADCSamples) st1 with ⟨st2, e2⟩
    rw [ha] at h
    cases e2 with
    | some err => exact Option.noConfusion h
    | none =>
      dsimp only at h ⊢
      -- the whole result is derivedTailB st2
      rcases hb : derivedTailB st2 with ⟨st3, e3⟩
      rw [hb] at h
      cases e3 with
      | some err => exact Option.noConfusion h
      | none =>
        dsimp only
        -- the dwell flags survived regLoop as a pair (or both none)
        have hpair := regLoop_dwell_pair hdr _ _ (initApres hdr) st1 hr
          (Or.inl ⟨rfl, rfl⟩)
        obtain ⟨_, hA_ndh, hA_ndl, _, hA_stop, _, _, _, _, hA_npp⟩ :=
          derivedTailA_untouched (extractScalarTok hdr tokSamplingFreqMode)
            (extractScalarTok hdr tokNADCSamples) st1
        rw [ha] at hA_ndh hA_ndl hA_stop hA_npp
        dsimp only at hA_ndh hA_ndl hA_stop hA_npp
        obtain ⟨_, _, _, _, _, _, hB_stop, _, _, _, hB_ndh, hB_ndl⟩ :=
          derivedTailB_untouched st2
        rw [hb] at hB_stop hB_ndh hB_ndl
        dsimp only at hB_stop hB_ndh hB_ndl
        obtain ⟨sf, ndh, hsf, hndh, hcase⟩ := derivedTailB_success st2 st3 hb
        -- the loop invariant forces the no-dwell pair to be fully assigned
        have hloop_npp := (regLoop_untouched hdr (findAll tokReg0 hdr)
          (findAll tokEqQuote hdr) (initApres hdr)).2.2.2.2.2.2.2
        rw [hr] at hloop_npp
        dsimp only at hloop_npp
        rcases hpair with ⟨hp1, hp2⟩ | ⟨hi, lo, hp1, hp2⟩
        · rw [hA_ndh, hp1] at hndh
          exact Option.noConfusion hndh
        · have hhi : hi = ndh := by
            rw [hA_ndh, hp1] at hndh
            injection hndh
          subst hhi
          refine ⟨sf, hi, lo, by rw [hB_stop, hsf],
            by rw [hB_ndh, hA_ndh, hp1], by rw [hB_ndl, hA_ndl, hp2], ?_, ?_⟩
          · rcases hcase with ⟨hz, hrd, _⟩ | ⟨ndl, hnz, hndlv, hc2⟩
            · subst hz
              simp only [ne_eq, not_true_eq_false, false_and, if_false]
              exact hrd
            · have hlo : ndl = lo := by
                rw [hA_ndl, hp2] at hndlv
                injection hndlv with hx
                exact hx.symm
              subst hlo
              rcases hc2 with ⟨hz2, hrd, _⟩ | ⟨hnz2, hrd, _⟩
              · subst hz2
                simp only [ne_eq, not_false_eq_true, true_and, not_true_eq_false, and_false,
                  if_false]
                exact hrd
              · rw [if_pos ⟨hnz, hnz2⟩]
                exact hrd
          · rcases hcase with ⟨hz, _, hnpp⟩ | ⟨ndl, hnz, hndlv, hc2⟩
            · subst hz
              simp only [ne_eq, not_true_eq_false, false_and, if_false]
              rw [hnpp, hA_npp, hloop_npp]
              rfl
            · have hlo : ndl = lo := by
                rw [hA_ndl, hp2] at hndlv
                injection hndlv with hx
                exact hx.symm
              subst hlo
              rcases hc2 with ⟨hz2, _, hnpp⟩ | ⟨hnz2, _, hnpp⟩
              · subst hz2
                simp only [ne_eq, not_false_eq_true, true_and, not_true_eq_false, and_false,
                  if_false]
                rw [hnpp, hA_npp, hloop_npp]
                rfl
              · rw [if_pos ⟨hnz, hnz2⟩]
                exact hnpp

/-- `hdrFull` with the `Reg01` payload replaced by `000E0000`, whose bits
17 and 18 (counted from the least-significant bit) are both set: both
no-dwell flags decode to 1. -/
def hdrFullDwell : List Char :=
  tokReg01 ++ ['=', '"', '0', '0', '0', 'E', '0', '0', '0', '0', '"'] ++
  tokReg0B ++ ['=', '"', '0', '1', '2', '3', '4', '5', '6', '7',
               '0', '0', 'A', 'B', 'C', 'D', 'E', 'F', '"'] ++
  tokReg0C ++ ['=', '"', '0', '0', '0', '0', '0', '0', '0', '1',
               '0', '0', '0', '0', '0', '0', '0', '1', '"'] ++
  tokReg0D ++ ['=', '"', '0', '0', '6', '4', '0', '1', '2', 'C', '"'] ++
  tokSamplingFreqMode ++ ['0', '\\'] ++
  tokNADCSamples ++ ['4', '0', '0', '0', '0', '\\']

-- The Batteries rational operations are `@[irreducible]`, which blocks
-- `decide` on concrete witness computations; re-marking them semireducible
-- locally restores kernel-visible unfolding for this witness only.
section RatEval2
set_option allowUnsafeReducibility true
attribute [local semireducible] Rat.mul Rat.add Rat.inv Rat.sub Rat.neg Rat.div

set_option maxRecDepth 4000 in
/-- Witness for C7: on `hdrFullDwell` the decode succeeds (with both
no-dwell flags nonzero, so the direction resolves to `upDown`). -/
theorem update_parameters_rampDir_witness :
    ∃ sf ndh ndl,
      (update_parameters (initApres hdrFullDwell)).1.stopFreq = some sf ∧
      (update_parameters (initApres hdrFullDwell)).1.noDwellHigh = some ndh ∧
      (update_parameters (initApres hdrFullDwell)).1.noDwellLow = some ndl ∧
      (update_parameters (initApres hdrFullDwell)).1.rampDir =
        some (if ndh ≠ 0 ∧ ndl ≠ 0 then RampDir.upDown
              else if sf > 400000000 then RampDir.down else RampDir.up) ∧
      (update_parameters (initApres hdrFullDwell)).1.nchirpsPerPeriod =
        (if ndh ≠ 0 ∧ ndl ≠ 0 then some PyNum.nan else none) :=
  update_parameters_rampDir hdrFullDwell (by decide)

end RatEval2

/-- Any Python slice of a string is a contiguous substring of it. -/
lemma pySlice_infix (s : List Char) (a b : Int) : pySlice s a b <:+: s :=
  ((List.drop_suffix _ _).isInfix).trans ((List.take_prefix _ _).isInfix)

/-- A `regStep` whose `case` slice is not `Reg0B` leaves the ramp-limit
frequencies untouched. -/
lemma regStep_freqs_ne (h : List Char) (l2 : Nat) (case : List Char) (st : ApresHeader)
    (hc : case ≠ tokReg0B) :
    ((regStep h l2 case st).1).startFreq = st.startFreq ∧
    ((regStep h l2 case st).1).stopFreq = st.stopFreq := by
  unfold regStep
  repeat' (first | split | dsimp only)
  all_goals first
  | exact ⟨rfl, rfl⟩
  | exact absurd (by assumption) hc

/-- A `regStep` whose `case` slice is not `Reg0C` leaves the ramp steps
untouched. -/
lemma regStep_ramp_ne (h : List Char) (l2 : Nat) (case : List Char) (st : ApresHeader)
    (hc : case ≠ tokReg0C) :
    ((regStep h l2 case st).1).rampUpStep = st.rampUpStep ∧
    ((regStep h l2 case st).1).rampDownStep = st.rampDownStep := by
  unfold regStep
  repeat' (first | split | dsimp only)
  all_goals first
  | exact ⟨rfl, rfl⟩
  | exact absurd (by assumption) hc

/-- A `regStep` whose `case` slice is not `Reg0D` leaves the time steps
untouched. -/
lemma regStep_tstep_ne (h : List Char) (l2 : Nat) (case : List Char) (st : ApresHeader)
    (hc : case ≠ tokReg0D) :
    ((regStep h l2 case st).1).tstepUp = st.tstepUp ∧
    ((regStep h l2 case st).1).tstepDown = st.tstepDown := by
  unfold regStep
  repeat' (first | split | dsimp only)
  all_goals first
  | exact ⟨rfl, rfl⟩
  | exact absurd (by assumption) hc

/-- A `regStep` whose `case` slice is not `Reg01` leaves the no-dwell
flags untouched. -/
lemma regStep_dwell_ne (h : List Char) (l2 : Nat) (case : List Char) (st : ApresHeader)
    (hc : case ≠ tokReg01) :
    ((regStep h l2 case st).1).noDwellHigh = st.noDwellHigh ∧
    ((regStep h l2 case st).1).noDwellLow = st.noDwellLow := by
  unfold regStep
  repeat' (first | split | dsimp only)
  all_goals first
  | exact ⟨rfl, rfl⟩
  | exact absurd (by assumption) hc

/-- If the literal token `Reg0B` does not occur in the header, the whole
register loop leaves the ramp-limit frequencies untouched. -/
lemma regLoop_freqs_of_no_tok (h : List Char) (l1 l2 : List Nat) (st : ApresHeader)
    (hni : ¬ (tokReg0B <:+: h)) :
    ((regLoop h l1 l2 st).1).startFreq = st.startFreq ∧
    ((regLoop h l1 l2 st).1).stopFreq = st.stopFreq := by
  induction l1 generalizing l2 st with
  | nil => exact ⟨rfl, rfl⟩
  | cons a rest ih =>
    cases l2 with
    | nil => exact ⟨rfl, rfl⟩
    | cons b rest2 =>
      have hc : pySlice h (a : Int) (b : Int) ≠ tokReg0B :=
        fun heq => hni (heq ▸ pySlice_infix h (a : Int) (b : Int))
      have hstep := regStep_freqs_ne h b (pySlice h (a : Int) (b : Int)) st hc
      unfold regLoop
      dsimp only
      rcases hs : regStep h b (pySlice h (a : Int) (b : Int)) st with ⟨st', e⟩
      rw [hs] at hstep
      cases e with
      | none =>
        dsimp only
        have hrest := ih rest2 st'
        exact ⟨hrest.1.trans hstep.1, hrest.2.trans hstep.2⟩
      | some err => exact hstep

/-- If the literal token `Reg0C` does not occur in the header, the whole
register loop leaves the ramp steps untouched. -/
lemma regLoop_ramp_of_no_tok (h : List Char) (l1 l2 : List Nat) (st : ApresHeader)
    (hni : ¬ (tokReg0C <:+: h)) :
    ((regLoop h l1 l2 st).1).rampUpStep = st.rampUpStep ∧
    ((regLoop h l1 l2 st).1).rampDownStep = st.rampDownStep := by
  induction l1 generalizing l2 st with
  | nil => exact ⟨rfl, rfl⟩
  | cons a rest ih =>
    cases l2 with
    | nil => exact ⟨rfl, rfl⟩
    | cons b rest2 =>
      have hc : pySlice h (a : Int) (b : Int) ≠ tokReg0C :=
        fun heq => hni (heq ▸ pySlice_infix h (a : Int) (b : Int))
      have hstep := regStep_ramp_ne h b (pySlice h (a : Int) (b : Int)) st hc
      unfold regLoop
      dsimp only
      rcases hs : regStep h b (pySlice h (a : Int) (b : Int)) st with ⟨st', e⟩
      rw [hs] at hstep
      cases e with
      | none =>
        dsimp only
        have hrest := ih rest2 st'
        exact ⟨hrest.1.trans hstep.1, hrest.2.trans hstep.2⟩
      | some err => exact hstep

/-- If the literal token `Reg0D` does not occur in the header, the whole
register loop leaves the time steps untouched. -/
lemma regLoop_tstep_of_no_tok (h : List Char) (l1 l2 : List Nat) (st : ApresHeader)
    (hni : ¬ (tokReg0D <:+: h)) :
    ((regLoop h l1 l2 st).1).tstepUp = st.tstepUp ∧
    ((regLoop h l1 l2 st).1).tstepDown = st.tstepDown := by
  induction l1 generalizing l2 st with
  | nil => exact ⟨rfl, rfl⟩
  | cons a rest ih =>
    cases l2 with
    | nil => exact ⟨rfl, rfl⟩
    | cons b rest2 =>
      have hc : pySlice h (a : Int) (b : Int) ≠ tokReg0D :=
        fun heq => hni (heq ▸ pySlice_infix h (a : Int) (b : Int))
      have hstep := regStep_tstep_ne h b (pySlice h (a : Int) (b : Int)) st hc
      unfold regLoop
      dsimp only
      rcases hs : regStep h b (pySlice h (a : Int) (b : Int)) st with ⟨st', e⟩
      rw [hs] at hstep
      cases e with
      | none =>
        dsimp only
        have hrest := ih rest2 st'
        exact ⟨hrest.1.trans hstep.1, hrest.2.trans hstep.2⟩
      | some err => exact hstep

/-- If the literal token `Reg01` does not occur in the header, the whole
register loop leaves the no-dwell flags untouched. -/
lemma regLoop_dwell_of_no_tok (h : List Char) (l1 l2 : List Nat) (st : ApresHeader)
    (hni : ¬ (tokReg01 <:+: h)) :
    ((regLoop h l1 l2 st).1).noDwellHigh = st.noDwellHigh ∧
    ((regLoop h l1 l2 st).1).noDwellLow = st.noDwellLow := by
  induction l1 generalizing l2 st with
  | nil => exact ⟨rfl, rfl⟩
  | cons a rest ih =>
    cases l2 with
    | nil => exact ⟨rfl, rfl⟩
    | cons b rest2 =>
      have hc : pySlice h (a : Int) (b : Int) ≠ tokReg01 :=
        fun heq => hni (heq ▸ pySlice_infix h (a : Int) (b : Int))
      have hstep := regStep_dwell_ne h b (pySlice h (a : Int) (b : Int)) st hc
      unfold regLoop
      dsimp only
      rcases hs : regStep h b (pySlice h (a : Int) (b : Int)) st with ⟨st', e⟩
      rw [hs] at hstep
      cases e with
      | none =>
        dsimp only
        have hrest := ih rest2 st'
        exact ⟨hrest.1.trans hstep.1, hrest.2.trans hstep.2⟩
      | some err => exact hstep

/-- With `stopFreq` unset, `derivedTailA` raises (at the `nstepsDDS`
statement at the latest) and never assigns `nstepsDDS`, `chirpLength` or
`nchirpSamples`. -/
lemma derivedTailA_no_stopFreq (out0 out1 : Option (List Char)) (st : ApresHeader)
    (hs : st.stopFreq = none) :
    ((derivedTailA out0 out1 st).2).isSome ∧
    ((derivedTailA out0 out1 st).1).nstepsDDS = st.nstepsDDS ∧
    ((derivedTailA out0 out1 st).1).chirpLength = st.chirpLength ∧
    ((derivedTailA out0 out1 st).1).nchirpSamples = st.nchirpSamples := by
  unfold derivedTailA
  simp only [pyEqOne, Bool.false_eq_true, if_false]
  repeat' (first | split | dsimp only)
  all_goals first
  | exact ⟨rfl, rfl, rfl, rfl⟩
  | simp_all

/-- With `startFreq` unset, `derivedTailA` raises before assigning
`nstepsDDS`, `chirpLength` or `nchirpSamples`. -/
lemma derivedTailA_no_startFreq (out0 out1 : Option (List Char)) (st : ApresHeader)
    (hs : st.startFreq = none) :
    ((derivedTailA out0 out1 st).2).isSome ∧
    ((derivedTailA out0 out1 st).1).nstepsDDS = st.nstepsDDS ∧
    ((derivedTailA out0 out1 st).1).chirpLength = st.chirpLength ∧
    ((derivedTailA out0 out1 st).1).nchirpSamples = st.nchirpSamples := by
  unfold derivedTailA
  simp only [pyEqOne, Bool.false_eq_true, if_false]
  repeat' (first | split | dsimp only)
  all_goals first
  | exact ⟨rfl, rfl, rfl, rfl⟩
  | simp_all

/-- With `rampUpStep` unset, `derivedTailA` raises before assigning
`nstepsDDS`, `chirpLength` or `nchirpSamples`. -/
lemma derivedTailA_no_rampUpStep (out0 out1 : Option (List Char)) (st : ApresHeader)
    (hs : st.rampUpStep = none) :
    ((derivedTailA out0 out1 st).2).isSome ∧
    ((derivedTailA out0 out1 st).1).nstepsDDS = st.nstepsDDS ∧
    ((derivedTailA out0 out1 st).1).chirpLength = st.chirpLength ∧
    ((derivedTailA out0 out1 st).1).nchirpSamples = st.nchirpSamples := by
  unfold derivedTailA
  simp only [pyEqOne, Bool.false_eq_true, if_false]
  repeat' (first | split | dsimp only)
  all_goals first
  | exact ⟨rfl, rfl, rfl, rfl⟩
  | simp_all

/-- With `tstepUp` unset, `derivedTailA` raises at the `chirpLength`
statement at the latest (`nstepsDDS` may already be assigned) and never
assigns `chirpLength` or `nchirpSamples`. -/
lemma derivedTailA_no_tstepUp (out0 out1 : Option (List Char)) (st : ApresHeader)
    (hs : st.tstepUp = none) :
    ((derivedTailA out0 out1 st).2).isSome ∧
    ((derivedTailA out0 out1 st).1).chirpLength = st.chirpLength ∧
    ((derivedTailA out0 out1 st).1).nchirpSamples = st.nchirpSamples := by
  unfold derivedTailA
  simp only [pyEqOne, Bool.false_eq_true, if_false]
  repeat' (first | split | dsimp only)
  all_goals first
  | exact ⟨rfl, rfl, rfl⟩
  | simp_all

/-- With `noDwellHigh` unset, `derivedTailB` raises at the no-dwell check
at the latest and never assigns `nchirpsPerPeriod`. -/
lemma derivedTailB_no_ndh (st : ApresHeader) (hs : st.noDwellHigh = none) :
    ((derivedTailB st).2).isSome ∧
    ((derivedTailB st).1).nchirpsPerPeriod = st.nchirpsPerPeriod := by
  unfold derivedTailB
  repeat'
    (first
    | (simp only [apply_ite ApresHeader.noDwellHigh, apply_ite ApresHeader.noDwellLow,
        apply_ite ApresHeader.nchirpsPerPeriod, ite_self])
    | dsimp only
    | split)
  all_goals first
  | exact ⟨rfl, rfl⟩
  | simp_all

/-- Unfolding `update_parameters` on a freshly read header object. -/
lemma update_parameters_initApres (hdr : List Char) :
    update_parameters (initApres hdr) =
      match regLoop hdr (findAll tokReg0 hdr) (findAll tokEqQuote hdr) (initApres hdr) with
      | (st', some e) => (st', some e)
      | (st', none) =>
        derivedTail (extractScalarTok hdr tokSamplingFreqMode)
          (extractScalarTok hdr tokNADCSamples) st' := rfl

/-- **C5** (amended): decoding a freshly read header blob in which a
required register token never occurs always raises; for a missing `Reg0B`
or `Reg0C` no derived scalar is assigned at all, for a missing `Reg0D`
everything from `chirpLength` on is left unassigned (`nstepsDDS`, which
does not depend on `Reg0D`, may be computed first), and for a missing
`Reg01` the failure is raised at the no-dwell check, after the
provisional ramp direction has been assigned but before the `upDown`
override or `nchirpsPerPeriod` is ever produced.  In no case is a missing
register silently defaulted. -/
theorem update_parameters_missing_register (hdr : List Char) :
    (¬ (tokReg0B <:+: hdr) →
      ((update_parameters (initApres hdr)).2).isSome ∧
      ((update_parameters (initApres hdr)).1).nstepsDDS = none ∧
      ((update_parameters (initApres hdr)).1).chirpLength = none ∧
      ((update_parameters (initApres hdr)).1).nchirpSamples = none ∧
      ((update_parameters (initApres hdr)).1).K = none ∧
      ((update_parameters (initApres hdr)).1).rampDir = none ∧
      ((update_parameters (initApres hdr)).1).nchirpsPerPeriod = none) ∧
    (¬ (tokReg0C <:+: hdr) →
      ((update_parameters (initApres hdr)).2).isSome ∧
      ((update_parameters (initApres hdr)).1).nstepsDDS = none ∧
      ((update_parameters (initApres hdr)).1).chirpLength = none ∧
      ((update_parameters (initApres hdr)).1).nchirpSamples = none ∧
      ((update_parameters (initApres hdr)).1).K = none ∧
      ((update_parameters (initApres hdr)).1).rampDir = none ∧
      ((update_parameters (initApres hdr)).1).nchirpsPerPeriod = none) ∧
    (¬ (tokReg0D <:+: hdr) →
      ((update_parameters (initApres hdr)).2).isSome ∧
      ((update_parameters (initApres hdr)).1).chirpLength = none ∧
      ((update_parameters (initApres hdr)).1).nchirpSamples = none ∧
      ((update_parameters (initApres hdr)).1).K = none ∧
      ((update_parameters (initApres hdr)).1).rampDir = none ∧
      ((update_parameters (initApres hdr)).1).nchirpsPerPeriod = none) ∧
    (¬ (tokReg01 <:+: hdr) →
      ((update_parameters (initApres hdr)).2).isSome ∧
      ((update_parameters (initApres hdr)).1).nchirpsPerPeriod = none) := by
  rcases hr : regLoop hdr (findAll tokReg0 hdr) (findAll tokEqQuote hdr)
      (initApres hdr) with ⟨st1, e1⟩
  have hupd := update_parameters_initApres hdr
  rw [hr] at hupd
  have hu := regLoop_untouched hdr (findAll tokReg0 hdr) (findAll tokEqQuote hdr)
    (initApres hdr)
  rw [hr] at hu
  obtain ⟨-, -, hu_nsteps, hu_cl, hu_ncs, hu_K, hu_rd, hu_npp⟩ := hu
  cases e1 with
  | some err =>
    dsimp only at hupd
    rw [hupd]
    exact ⟨fun _ => ⟨rfl, hu_nsteps, hu_cl, hu_ncs, hu_K, hu_rd, hu_npp⟩,
      fun _ => ⟨rfl, hu_nsteps, hu_cl, hu_ncs, hu_K, hu_rd, hu_npp⟩,
      fun _ => ⟨rfl, hu_cl, hu_ncs, hu_K, hu_rd, hu_npp⟩,
      fun _ => ⟨rfl, hu_npp⟩⟩
  | none =>
    dsimp only at hupd
    rw [show derivedTail (extractScalarTok hdr tokSamplingFreqMode)
        (extractScalarTok hdr tokNADCSamples) st1 =
        match derivedTailA (extractScalarTok hdr tokSamplingFreqMode)
            (extractScalarTok hdr tokNADCSamples) st1 with
        | (st2, some e) => (st2, some e)
        | (st2, none) => derivedTailB st2 from rfl] at hupd
    rcases ha : derivedTailA (extractScalarTok hdr tokSamplingFreqMode)
        (extractScalarTok hdr tokNADCSamples) st1 with ⟨st2, e2⟩
    rw [ha] at hupd
    have hAu := derivedTailA_untouched (extractScalarTok hdr tokSamplingFreqMode)
      (extractScalarTok hdr tokNADCSamples) st1
    rw [ha] at hAu
    obtain ⟨-, hAu_ndh, -, -, -, -, -, hAu_K, hAu_rd, hAu_npp⟩ := hAu
    refine ⟨?_, ?_, ?_, ?_⟩
    · -- Reg0B missing: stopFreq stayed unset, so derivedTailA raises
      intro hni
      have hfr := regLoop_freqs_of_no_tok hdr (findAll tokReg0 hdr) (findAll tokEqQuote hdr) (initApres hdr) hni
      rw [hr] at hfr
      have hA := derivedTailA_no_stopFreq (extractScalarTok hdr tokSamplingFreqMode)
        (extractScalarTok hdr tokNADCSamples) st1 hfr.2
      rw [ha] at hA
      cases e2 with
      | some err =>
        rw [hupd]
        exact ⟨rfl, hA.2.1.trans hu_nsteps, hA.2.2.1.trans hu_cl,
          hA.2.2.2.trans hu_ncs, hAu_K.trans hu_K, hAu_rd.trans hu_rd,
          hAu_npp.trans hu_npp⟩
      | none => exact Bool.noConfusion hA.1
    · -- Reg0C missing: rampUpStep stayed unset, so derivedTailA raises
      intro hni
      have hfr := regLoop_ramp_of_no_tok hdr (findAll tokReg0 hdr) (findAll tokEqQuote hdr) (initApres hdr) hni
      rw [hr] at hfr
      have hA := derivedTailA_no_rampUpStep (extractScalarTok hdr tokSamplingFreqMode)
        (extractScalarTok hdr tokNADCSamples) st1 hfr.1
      rw [ha] at hA
      cases e2 with
      | some err =>
        rw [hupd]
        exact ⟨rfl, hA.2.1.trans hu_nsteps, hA.2.2.1.trans hu_cl,
          hA.2.2.2.trans hu_ncs, hAu_K.trans hu_K, hAu_rd.trans hu_rd,
          hAu_npp.trans hu_npp⟩
      | none => exact Bool.noConfusion hA.1
    · -- Reg0D missing: tstepUp stayed unset, so derivedTailA raises after
      -- nstepsDDS but before chirpLength
      intro hni
      have hfr := regLoop_tstep_of_no_tok hdr (findAll tokReg0 hdr) (findAll tokEqQuote hdr) (initApres hdr) hni
      rw [hr] at hfr
      have hA := derivedTailA_no_tstepUp (extractScalarTok hdr tokSamplingFreqMode)
        (extractScalarTok hdr tokNADCSamples) st1 hfr.1
      rw [ha] at hA
      cases e2 with
      | some err =>
        rw [hupd]
        exact ⟨rfl, hA.2.1.trans hu_cl, hA.2.2.trans hu_ncs, hAu_K.trans hu_K,
          hAu_rd.trans hu_rd, hAu_npp.trans hu_npp⟩
      | none => exact Bool.noConfusion hA.1
    · -- Reg01 missing: the no-dwell flags stayed unset; derivedTailA may
      -- succeed, but derivedTailB then raises at the no-dwell check
      intro hni
      have hfr := regLoop_dwell_of_no_tok hdr (findAll tokReg0 hdr) (findAll tokEqQuote hdr) (initApres hdr) hni
      rw [hr] at hfr
      cases e2 with
      | some err =>
        rw [hupd]
        exact ⟨rfl, hAu_npp.trans hu_npp⟩
      | none =>
        have hB := derivedTailB_no_ndh st2 (hAu_ndh.trans hfr.1)
        rw [hupd]
        exact ⟨hB.1, hB.2.trans (hAu_npp.trans hu_npp)⟩

/-- `hdrFull` with the `Reg01` token removed: `Reg0B`, `Reg0C`, `Reg0D`
and the scalar tokens are present and valid, `Reg01` never occurs. -/
def hdrNoReg01 : List Char :=
  tokReg0B ++ ['=', '"', '0', '1', '2', '3', '4', '5', '6', '7',
               '0', '0', 'A', 'B', 'C', 'D', 'E', 'F', '"'] ++
  tokReg0C ++ ['=', '"', '0', '0', '0', '0', '0', '0', '0', '1',
               '0', '0', '0', '0', '0', '0', '0', '1', '"'] ++
  tokReg0D ++ ['=', '"', '0', '0', '6', '4', '0', '1', '2', 'C', '"'] ++
  tokSamplingFreqMode ++ ['0', '\\'] ++
  tokNADCSamples ++ ['4', '0', '0', '0', '0', '\\']

-- The Batteries rational operations are `@[irreducible]`, which blocks
-- `decide` on concrete witness computations; re-marking them semireducible
-- locally restores kernel-visible unfolding for this witness only.
section RatEval3
set_option allowUnsafeReducibility true
attribute [local semireducible] Rat.mul Rat.add Rat.inv Rat.sub Rat.neg Rat.div

set_option maxRecDepth 4000 in
/-- Counterexample to C5 as stated: on a blob whose `Reg01` token is
absent the decode does fail (with the `AttributeError` playing the role of
`MissingRegisterError`), but *not* "before any derived scalar depending on
the absent register is computed": the ramp-direction tag — whose final
value depends on `Reg01`'s no-dwell flags via the `upDown` override — has
already been assigned its provisional value `up` when the failure is
raised (and `nstepsDDS`, `chirpLength`, `K` were likewise computed from
the partial register set). -/
theorem update_parameters_missing_reg01_counterexample :
    ((update_parameters (initApres hdrNoReg01)).2).isSome = true ∧
    ((update_parameters (initApres hdrNoReg01)).1).rampDir = some RampDir.up ∧
    ((update_parameters (initApres hdrNoReg01)).1).K.isSome = true := by
  refine ⟨?_, ?_, ?_⟩ <;> decide

set_option maxRecDepth 4000 in
/-- Witness for the amended C5: `hdrNoReg01` lacks `Reg01` (the decode
fails leaving `nchirpsPerPeriod` unset), and `hdrFsMode1` lacks `Reg0B`
(the decode fails with no derived scalar assigned at all). -/
theorem update_parameters_missing_register_witness :
    (((update_parameters (initApres hdrNoReg01)).2).isSome ∧
      ((update_parameters (initApres hdrNoReg01)).1).nchirpsPerPeriod = none) ∧
    (((update_parameters (initApres hdrFsMode1)).2).isSome ∧
      ((update_parameters (initApres hdrFsMode1)).1).nstepsDDS = none ∧
      ((update_parameters (initApres hdrFsMode1)).1).chirpLength = none ∧
      ((update_parameters (initApres hdrFsMode1)).1).nchirpSamples = none ∧
      ((update_parameters (initApres hdrFsMode1)).1).K = none ∧
      ((update_parameters (initApres hdrFsMode1)).1).rampDir = none ∧
      ((update_parameters (initApres hdrFsMode1)).1).nchirpsPerPeriod = none) :=
  ⟨(update_parameters_missing_register hdrNoReg01).2.2.2 (by decide),
   (update_parameters_missing_register hdrFsMode1).1 (by decide)⟩

end RatEval3

/-! ## gecko (src/impdar/lib/load_gecko.py)

The binary file is modelled as a list of typed tokens: every
`np.fromfile(fid, dtype, 1)` in the source becomes the consumption of one
token tagged with that dtype, the fixed padding buffers become runs of
byte tokens, the raw `fid.read(64)` filename read becomes one
`bytes 64` token, and the end-of-file probe (`fid.seek(0,2)` /
`fid.tell()`) becomes the test "no tokens remain".  Reading past the end
(an empty `np.fromfile` result indexed with `[0]`) is the `truncated`
error.  Values are carried as exact rationals; float fields hold the value
the IEEE bytes denote.  Display-only attributes (`Filename` content,
`ChName`, the `*String` labels, whose unknown-value branches merely
construct `Warning(..)` without raising) and the `flags` object are not
modelled: they are never read back by the decoder. -/

/-- The numpy dtypes the gecko decoder reads. -/
inductive Dtype
  | u8
  | i8
  | i16
  | i32
  | f32
  | f64
  /-- An opaque run of `n` raw bytes (a `fid.read n`). -/
  | bytes (n : Nat)
deriving DecidableEq

/-- One typed scalar in the binary stream. -/
structure Tok where
  d : Dtype
  v : ℚ
deriving DecidableEq

/-- Failure modes of the gecko decode. -/
inductive GErr
  /-- A field read crossed the end-of-file offset (or the stream bytes
  cannot be the expected dtype). -/
  | truncated
  /-- `TypeError('Corrupt Channel header, …')` on an index mismatch. -/
  | corruptChannel
  /-- `NameError`: local `newdata` referenced before any assignment. -/
  | unboundNewdata
  /-- `TypeError` at the marker branch's serial-time line: the float
  array read by `np.fromfile` is added to a bare `datetime.date` (the
  `.toordinal()` present on the other epoch-offset lines is missing
  here), which raises. -/
  | markerDate
  /-- `AttributeError`: `self.data` finalized without any trace iteration. -/
  | noTraces
  /-- Stand-in for an infinite `while` loop (`nChannels = 0` with bytes
  remaining): the model's fuel ran out. -/
  | nonterminating
deriving DecidableEq

/-- Consume one token of dtype `d`. -/
def readTok (d : Dtype) : List Tok → Except GErr (ℚ × List Tok)
  | [] => .error .truncated
  | t :: rest => if t.d = d then .ok (t.v, rest) else .error .truncated

/-- Consume `n` tokens of dtype `d` (an `np.fromfile(fid, d, n)` bulk
read, or `fid.read(n)` for byte runs). -/
def readRun (d : Dtype) : Nat → List Tok → Except GErr (List ℚ × List Tok)
  | 0, s => .ok ([], s)
  | n + 1, s =>
    match readTok d s with
    | .error e => .error e
    | .ok (v, s) =>
      match readRun d n s with
      | .error e => .error e
      | .ok (vs, s) => .ok (v :: vs, s)

/-- The file-header fields of a gecko object (display-only string labels
omitted, see the section comment). -/
structure GeckoHeader where
  Version : ℚ
  Filename : ℚ
  Serialtime : ℚ
  Timezone : ℤ
  chan : ℤ
  nChannels : ℚ
  RecordMode : ℚ
  RecordInterval : ℚ
  NumberOfStacks : ℚ
  SampFreq : ℚ
  dt : ℚ
  PreTriggerDepth : ℚ
  PostTriggerDepth : ℚ
  snum : ℚ
  TriggerSource : ℚ
  TriggerSlope : ℚ
  ExtTriggerRange : ℚ
  ExtTriggerCoupling : ℚ
  OdometerCalibration : Option ℚ
  NominalFrequency : ℚ
  AntennaSeparation : ℚ
deriving DecidableEq

/-- The file-header reads of `gecko.__init__`, in source order, with the
version-conditional fields.  (`1./SampFreq` at `SampFreq = 0` is numpy
`inf`, which ℚ cannot carry; the model stores 0 there — no claim reads
`dt` — and every other field is exact.) -/
def decodeFileHeader (channel : ℤ) (s : List Tok) :
    Except GErr (GeckoHeader × List Tok) :=
  match readTok .i16 s with
  | .error e => .error e
  | .ok (vraw, s) =>
  match readTok (.bytes 64) s with
  | .error e => .error e
  | .ok (fname, s) =>
  match readTok .f64 s with
  | .error e => .error e
  | .ok (st0, s) =>
  match readTok .i16 s with
  | .error e => .error e
  | .ok (tz, s) =>
  match readTok .u8 s with
  | .error e => .error e
  | .ok (nch, s) =>
  match readTok .u8 s with
  | .error e => .error e
  | .ok (rm, s) =>
  match readTok .i16 s with
  | .error e => .error e
  | .ok (ri, s) =>
  match readTok .i16 s with
  | .error e => .error e
  | .ok (ns, s) =>
  match readTok .i16 s with
  | .error e => .error e
  | .ok (sfRaw, s) =>
  match readTok .i16 s with
  | .error e => .error e
  | .ok (pre, s) =>
  match readTok .i16 s with
  | .error e => .error e
  | .ok (post, s) =>
  match readTok .i8 s with
  | .error e => .error e
  | .ok (tsrc, s) =>
  match readTok .u8 s with
  | .error e => .error e
  | .ok (tslope, s) =>
  match readTok .i16 s with
  | .error e => .error e
  | .ok (extr, s) =>
  match readTok .u8 s with
  | .error e => .error e
  | .ok (extc, s) =>
  match (if vraw / 100 < 321 / 100 then
      (match readTok .i16 s with
      | .error e => .error e
      | .ok (v, s) => .ok (some v, s) : Except GErr (Option ℚ × List Tok))
    else .ok (none, s)) with
  | .error e => .error e
  | .ok (odoCal, s) =>
  match (if vraw / 100 < 38 / 10 then readTok .i16 s else readTok .f32 s) with
  | .error e => .error e
  | .ok (nomf, s) =>
  match readTok .f32 s with
  | .error e => .error e
  | .ok (asep, s) =>
  match (if vraw / 100 < 36 / 10 then
      (match readRun .i8 27 s with
      | .error e => .error e
      | .ok (_, s) => .ok s : Except GErr (List Tok))
    else .ok s) with
  | .error e => .error e
  | .ok s =>
  .ok ({ Version := vraw / 100, Filename := fname, Serialtime := st0 + 719163,
         Timezone := ⌊tz / 1440⌋, chan := channel, nChannels := nch,
         RecordMode := rm, RecordInterval := ri, NumberOfStacks := ns,
         SampFreq := sfRaw * 1000000, dt := 1 / (sfRaw * 1000000),
         PreTriggerDepth := pre, PostTriggerDepth := post, snum := pre + post,
         TriggerSource := tsrc, TriggerSlope := tslope,
         ExtTriggerRange := extr, ExtTriggerCoupling := extc,
         OdometerCalibration := odoCal, NominalFrequency := nomf,
         AntennaSeparation := asep }, s)

/-- The channel-header loop: for each expected 1-based position, read the
channel index (raising `corruptChannel` on mismatch), voltage range,
impedance and coupling codes, and the pre-3.6 padding. -/
def chanLoop (ver : ℚ) (nn : Nat) :
    Nat → List Tok → Except GErr ((List ℚ × List ℚ × List ℚ) × List Tok)
  | 0, s => .ok (([], [], []), s)
  | rem + 1, s =>
    match readTok .u8 s with
    | .error e => .error e
    | .ok (c, s) =>
    if c ≠ ((nn : ℚ) + 1) then .error .corruptChannel
    else
      match readTok .i16 s with
      | .error e => .error e
      | .ok (vr, s) =>
      match readTok .u8 s with
      | .error e => .error e
      | .ok (im, s) =>
      match readTok .u8 s with
      | .error e => .error e
      | .ok (cp, s) =>
      match (if ver < 36 / 10 then
          (match readRun .i8 27 s with
          | .error e => .error e
          | .ok (_, s) => .ok s : Except GErr (List Tok))
        else .ok s) with
      | .error e => .error e
      | .ok s =>
      match chanLoop ver (nn + 1) rem s with
      | .error e => .error e
      | .ok ((vrs, ims, cps), s) =>
        .ok ((vr :: vrs, im :: ims, cp :: cps), s)

/-- The per-trace accumulators preallocated at `nTrc == 1`, plus the
function-local `newdata`, which persists across loop iterations. -/
structure TraceAcc where
  trace_num : List ℚ := []
  decday : List ℚ := []
  trace_int : List ℚ := []
  trig_level : List ℚ := []
  Odometer : List ℚ := []
  pressure : List ℚ := []
  lat : List ℚ := []
  long : List ℚ := []
  elev : List ℚ := []
  GPSResolution : List ℚ := []
  /-- Rows of `self.data` before the final transpose, one per appended
  sample payload. -/
  data : List (List ℚ) := []
  /-- The local variable `newdata`: `none` until the first record of type
  0 assigns it. -/
  newdata : Option (List ℚ) := none
deriving DecidableEq

/-- The per-channel loop body of the trace loop (`for nn in
range(self.nChannels)`), processing channels `nn … nCh-1` of one trace.
A marker record (type 1) reads its marker number, trace number and
serial time, then raises `TypeError` (the serial-time line adds a bare
`datetime.date` to the float array), never reaching its `break`; a data
record (type 0) reads the sample payload into `newdata`; any other type
falls through to the append stage with the previous `newdata`.
Per-trace scalars are appended only at channel 1, the sample payload
only at the selected output channel. -/
def readTraceChannels (hd : GeckoHeader) (snumN : Nat) :
    Nat → Nat → TraceAcc → List Tok → Except GErr (TraceAcc × List Tok)
  | _, 0, acc, s => .ok (acc, s)
  | nn, rem + 1, acc, s =>
    match readTok .u8 s with
    | .error e => .error e
    | .ok (t, s) =>
    match readTok .u8 s with
    | .error e => .error e
    | .ok (c, s) =>
    if c ≠ ((nn : ℚ) + 1) then .error .corruptChannel
    else
      match readTok .i32 s with
      | .error e => .error e
      | .ok (tn, s) =>
      match readTok .f64 s with
      | .error e => .error e
      | .ok (dd, s) =>
      match readTok .f32 s with
      | .error e => .error e
      | .ok (ti, s) =>
      match readTok .i16 s with
      | .error e => .error e
      | .ok (tl, s) =>
      match (if hd.Version < 321 / 100 then
          (match readTok .f32 s with
          | .error e => .error e
          | .ok (od, s) =>
            match readTok .f32 s with
            | .error e => .error e
            | .ok (pr, s) => .ok (some (od, pr), s) :
            Except GErr (Option (ℚ × ℚ) × List Tok))
        else .ok (none, s)) with
      | .error e => .error e
      | .ok (odpr, s) =>
      match readTok .f64 s with
      | .error e => .error e
      | .ok (la, s) =>
      match readTok .f64 s with
      | .error e => .error e
      | .ok (lo, s) =>
      match readTok .f32 s with
      | .error e => .error e
      | .ok (el, s) =>
      match readTok .f32 s with
      | .error e => .error e
      | .ok (gr, s) =>
      match (if hd.Version < 36 / 10 then
          (match readRun .i8 (if hd.Version < 32 / 10 then 12 else 14) s with
          | .error e => .error e
          | .ok (_, s) => .ok s : Except GErr (List Tok))
        else .ok s) with
      | .error e => .error e
      | .ok s =>
      if t = 0 then
        -- data record: read the sample payload into the local `newdata`
        match readRun .i16 snumN s with
        | .error e => .error e
        | .ok (nd, s) =>
          let acc := { acc with newdata := some nd }
          let acc := appendAt1 hd nn acc tn (dd + 719163) ti tl odpr la lo el gr
          match appendData hd nn acc s with
          | .error e => .error e
          | .ok (acc, s) => readTraceChannels hd snumN (nn + 1) rem acc s
      else if t = 1 then
        -- marker record: the marker number and trace number are read,
        -- then the serial-time line reads its float and adds a bare
        -- `datetime.date` to it, raising `TypeError` before the GPS
        -- fields, the `break`, or anything else
        match readTok .i16 s with
        | .error e => .error e
        | .ok (_, s) =>
        match readTok .i32 s with
        | .error e => .error e
        | .ok (_, s) =>
        match readTok .f64 s with
        | .error e => .error e
        | .ok (_, _) => .error .markerDate
      else
        -- comment (or unknown) record: no branch reads a payload; fall
        -- through to the append stage with the stale `newdata`
        let acc := appendAt1 hd nn acc tn (dd + 719163) ti tl odpr la lo el gr
        match appendData hd nn acc s with
        | .error e => .error e
        | .ok (acc, s) => readTraceChannels hd snumN (nn + 1) rem acc s
where
  /-- `if nn+1 == 1:` record the per-trace scalars from channel 1. -/
  appendAt1 (hd : GeckoHeader) (nn : Nat) (acc : TraceAcc)
      (tn dd ti tl : ℚ) (odpr : Option (ℚ × ℚ)) (la lo el gr : ℚ) : TraceAcc :=
    if nn + 1 = 1 then
      { acc with
        trace_num := acc.trace_num ++ [tn]
        decday := acc.decday ++ [dd]
        trace_int := acc.trace_int ++ [ti]
        trig_level := acc.trig_level ++ [tl]
        Odometer := acc.Odometer ++
          (match odpr with | some (od, _) => [od] | none => [])
        pressure := acc.pressure ++
          (match odpr with | some (_, pr) => [pr] | none => [])
        lat := acc.lat ++ [la]
        long := acc.long ++ [lo]
        elev := acc.elev ++ [el]
        GPSResolution := acc.GPSResolution ++ [gr] }
    else acc
  /-- `if nn+1 == self.chan:` append `newdata` as a new row of `data`;
  an unassigned `newdata` is Python's unbound-local `NameError`. -/
  appendData (hd : GeckoHeader) (nn : Nat) (acc : TraceAcc) (s : List Tok) :
      Except GErr (TraceAcc × List Tok) :=
    if ((nn : ℤ) + 1) = hd.chan then
      match acc.newdata with
      | none => .error .unboundNewdata
      | some nd => .ok ({ acc with data := acc.data ++ [nd] }, s)
    else .ok (acc, s)

/-- The `while fid.tell() < eof` trace loop.  `accOpt = none` models the
state before the first iteration's `nTrc == 1` preallocation.  `fuel`
bounds the number of iterations; exhausting it with bytes remaining
models the infinite loop Python enters when an iteration consumes
nothing (`nChannels = 0`). -/
def traceLoop (hd : GeckoHeader) (snumN nCh : Nat) :
    Nat → Option TraceAcc → List Tok → Except GErr (Option TraceAcc × List Tok)
  | fuel, accOpt, s =>
    if s.isEmpty then .ok (accOpt, s)
    else
      match fuel with
      | 0 => .error .nonterminating
      | fuel + 1 =>
        match readTraceChannels hd snumN 0 nCh (accOpt.getD {}) s with
        | .error e => .error e
        | .ok (acc, s) => traceLoop hd snumN nCh fuel (some acc) s

/-- Transpose of a rectangular row-major matrix whose rows all have
length `snum` (every row of `data` is a `readRun … snumN` result, and
`np.append(.., axis=0)` would have raised on any other length). -/
def transposeMat (snum : Nat) (rows : List (List ℚ)) : List (List ℚ) :=
  (List.range snum).map (fun i => rows.map (fun r => r.getD i 0))

/-- The decoded gecko object: the header fields plus the finalized
per-trace/per-sample arrays. -/
structure GeckoData where
  hd : GeckoHeader
  travel_time : List ℚ
  trace_num : List ℚ
  decday : List ℚ
  trace_int : List ℚ
  trig_level : List ℚ
  Odometer : List ℚ
  pressure : List ℚ
  lat : List ℚ
  long : List ℚ
  elev : List ℚ
  GPSResolution : List ℚ
  data : List (List ℚ)
  tnum : Nat
  x_coord : List ℚ
  y_coord : List ℚ
  dist : List ℚ
  trig : List ℚ
deriving DecidableEq

/-- `gecko(fn, channel)`: the full decode — file header, channel headers,
trace loop, finalization.  Finalization transposes `data`, derives `tnum`
from its shape, **overwrites `trig_level` with zeros**, zeroes `pressure`
for versions ≥ 3.6, and fills `x_coord`/`y_coord`/`dist`/`trig`.
Reaching finalization with no trace iteration run leaves `self.data`
undefined, so `np.transpose(self.data)` raises (`noTraces`). -/
def gecko (channel : ℤ) (s : List Tok) : Except GErr GeckoData :=
  match decodeFileHeader channel s with
  | .error e => .error e
  | .ok (hd, s) =>
  match chanLoop hd.Version 0 (⌊hd.nChannels⌋).toNat s with
  | .error e => .error e
  | .ok (_, s) =>
  let snumN := (⌊hd.snum⌋).toNat
  let travel_time := (List.range snumN).map
    (fun i => ((i : ℚ) - hd.PreTriggerDepth) * (1 / hd.SampFreq))
  match traceLoop hd snumN (⌊hd.nChannels⌋).toNat (s.length + 1) none s with
  | .error e => .error e
  | .ok (accOpt, _) =>
  match accOpt with
  | none => .error .noTraces
  | some acc =>
    let dataT := transposeMat snumN acc.data
    let tnum := acc.data.length
    .ok { hd := hd
          travel_time := travel_time
          trace_num := acc.trace_num
          decday := acc.decday
          trace_int := acc.trace_int
          trig_level := List.replicate tnum 0
          Odometer := acc.Odometer
          pressure := if hd.Version ≥ 36 / 10 then List.replicate tnum 0 else acc.pressure
          lat := acc.lat
          long := acc.long
          elev := acc.elev
          GPSResolution := acc.GPSResolution
          data := dataT
          tnum := tnum
          x_coord := List.replicate tnum 0
          y_coord := List.replicate tnum 0
          dist := (List.range tnum).map (fun i => (i : ℚ))
          trig := List.replicate tnum 0 }

/-! ### Synthetic stream construction

Encoders build well-formed token streams in exactly the layout §4.3 of
the file format prescribes (and the decoder reads): they are the
"synthetically constructed FileHeader + N channel headers + M trace
records" of the round-trip claim. -/

/-- The file-header field values a synthetic stream injects.
`rawVersion` is the on-disk int16 (the version is `rawVersion/100`);
`pre`/`post` are the int16 trigger depths, so `snum = pre + post`. -/
structure GeckoParams where
  rawVersion : ℚ
  serialtime : ℚ
  timezone : ℚ
  nChannels : Nat
  recordMode : ℚ
  recordInterval : ℚ
  numberOfStacks : ℚ
  sampFreq : ℚ
  pre : Nat
  post : Nat
  trigSource : ℚ
  trigSlope : ℚ
  extTrigRange : ℚ
  extTrigCoupling : ℚ
  odoCal : ℚ
  nomFreq : ℚ
  antennaSep : ℚ

/-- Encode the file header for `p`, with the version-dependent fields. -/
def encodeFileHeader (p : GeckoParams) : List Tok :=
  [⟨.i16, p.rawVersion⟩, ⟨.bytes 64, 0⟩] ++
  [⟨.f64, p.serialtime⟩, ⟨.i16, p.timezone⟩, ⟨.u8, (p.nChannels : ℚ)⟩,
   ⟨.u8, p.recordMode⟩, ⟨.i16, p.recordInterval⟩, ⟨.i16, p.numberOfStacks⟩,
   ⟨.i16, p.sampFreq⟩, ⟨.i16, (p.pre : ℚ)⟩, ⟨.i16, (p.post : ℚ)⟩,
   ⟨.i8, p.trigSource⟩, ⟨.u8, p.trigSlope⟩, ⟨.i16, p.extTrigRange⟩,
   ⟨.u8, p.extTrigCoupling⟩] ++
  (if p.rawVersion / 100 < 321 / 100 then [⟨.i16, p.odoCal⟩] else []) ++
  (if p.rawVersion / 100 < 38 / 10 then [⟨.i16, p.nomFreq⟩] else [⟨.f32, p.nomFreq⟩]) ++
  [⟨.f32, p.antennaSep⟩] ++
  (if p.rawVersion / 100 < 36 / 10 then List.replicate 27 ⟨.i8, 0⟩ else [])

/-- One synthetic channel header's field values. -/
structure ChanParams where
  voltRange : ℚ
  impedance : ℚ
  coupling : ℚ

/-- Encode the channel header at 1-based position `nn+1`. -/
def encodeChanHeader (ver : ℚ) (nn : Nat) (c : ChanParams) : List Tok :=
  [⟨.u8, (nn : ℚ) + 1⟩, ⟨.i16, c.voltRange⟩, ⟨.u8, c.impedance⟩, ⟨.u8, c.coupling⟩] ++
  (if ver < 36 / 10 then List.replicate 27 ⟨.i8, 0⟩ else [])

/-- Encode the channel headers starting at 0-based position `nn`. -/
def encodeChanHeaders (ver : ℚ) : Nat → List ChanParams → List Tok
  | _, [] => []
  | nn, c :: rest => encodeChanHeader ver nn c ++ encodeChanHeaders ver (nn + 1) rest

/-- The values injected into one channel's record of one trace.
`decday` is the semantic MATLAB day number: the encoder writes the serial
time `decday - 719163` that the decoder's epoch offset restores. -/
structure TraceChanRec where
  trace_num : ℚ
  decday : ℚ
  trace_int : ℚ
  trig_level : ℚ
  odometer : ℚ
  pressure : ℚ
  lat : ℚ
  long : ℚ
  elev : ℚ
  gpsres : ℚ
  samples : List ℚ
deriving DecidableEq

/-- A default record (used only as a `headD` fallback in statements). -/
def emptyChanRec : TraceChanRec :=
  ⟨0, 0, 0, 0, 0, 0, 0, 0, 0, 0, []⟩

/-- The common per-record field block every trace record starts with
(after the type and channel bytes): the channel-1 scalars, the version-
conditional odometer/pressure pair, the GPS block, and the pre-3.6
padding. -/
def encodeRecCommon (ver : ℚ) (r : TraceChanRec) : List Tok :=
  [⟨.i32, r.trace_num⟩, ⟨.f64, r.decday - 719163⟩, ⟨.f32, r.trace_int⟩,
   ⟨.i16, r.trig_level⟩] ++
  (if ver < 321 / 100 then [⟨.f32, r.odometer⟩, ⟨.f32, r.pressure⟩] else []) ++
  [⟨.f64, r.lat⟩, ⟨.f64, r.long⟩, ⟨.f32, r.elev⟩, ⟨.f32, r.gpsres⟩] ++
  (if ver < 36 / 10 then
    List.replicate (if ver < 32 / 10 then 12 else 14) ⟨.i8, 0⟩
  else [])

/-- Encode one data-type (`record-type = 0`) channel record at 1-based
channel `nn+1`: the common field block followed by the `snum`-sample
payload. -/
def encodeDataRec (ver : ℚ) (nn : Nat) (r : TraceChanRec) : List Tok :=
  [⟨.u8, 0⟩, ⟨.u8, (nn : ℚ) + 1⟩] ++ encodeRecCommon ver r ++
  r.samples.map (fun v => ⟨.i16, v⟩)

/-- Encode the data records of one trace for channels `nn+1 …`. -/
def encodeTraceChans (ver : ℚ) : Nat → List TraceChanRec → List Tok
  | _, [] => []
  | nn, r :: rest => encodeDataRec ver nn r ++ encodeTraceChans ver (nn + 1) rest

/-- Encode `M` traces of data records. -/
def encodeTraces (ver : ℚ) : List (List TraceChanRec) → List Tok
  | [] => []
  | t :: rest => encodeTraceChans ver 0 t ++ encodeTraces ver rest

/-- A full synthetic stream: file header, `N` channel headers, then the
trace records. -/
def encodeStream (p : GeckoParams) (chans : List ChanParams)
    (traces : List (List TraceChanRec)) : List Tok :=
  encodeFileHeader p ++ encodeChanHeaders (p.rawVersion / 100) 0 chans ++
    encodeTraces (p.rawVersion / 100) traces

/-! ### Decoding a synthetic stream -/

/-- Reading a token of the dtype the stream holds yields its value. -/
@[simp]
lemma readTok_cons (d : Dtype) (v : ℚ) (rest : List Tok) :
    readTok d (⟨d, v⟩ :: rest) = .ok (v, rest) := by
  simp [readTok]

/-- `do`-bind over `Except` on a success. -/
@[simp]
lemma except_bind_ok {α β : Type} (x : α) (f : α → Except GErr β) :
    (Except.ok x : Except GErr α) >>= f = f x := rfl

/-- `do`-bind over `Except` on a failure. -/
@[simp]
lemma except_bind_error {α β : Type} (e : GErr) (f : α → Except GErr β) :
    (Except.error e : Except GErr α) >>= f = .error e := rfl

/-- A bulk read of exactly the mapped values. -/
lemma readRun_map (d : Dtype) (vs : List ℚ) (rest : List Tok) :
    readRun d vs.length (vs.map (fun v => (⟨d, v⟩ : Tok)) ++ rest) = .ok (vs, rest) := by
  induction vs with
  | nil => rfl
  | cons v vs ih => simp [readRun, ih]

/-- A bulk read of a constant run. -/
lemma readRun_replicate (d : Dtype) (n : Nat) (c : ℚ) (rest : List Tok) :
    readRun d n (List.replicate n (⟨d, c⟩ : Tok) ++ rest) =
      .ok (List.replicate n c, rest) := by
  have h := readRun_map d (List.replicate n c) rest
  simpa using h

/-- The header object `decodeFileHeader` produces from a synthetic
stream. -/
def hdrOfParams (channel : ℤ) (p : GeckoParams) : GeckoHeader :=
  { Version := p.rawVersion / 100
    Filename := 0
    Serialtime := p.serialtime + 719163
    Timezone := ⌊p.timezone / 1440⌋
    chan := channel
    nChannels := p.nChannels
    RecordMode := p.recordMode
    RecordInterval := p.recordInterval
    NumberOfStacks := p.numberOfStacks
    SampFreq := p.sampFreq * 1000000
    dt := 1 / (p.sampFreq * 1000000)
    PreTriggerDepth := p.pre
    PostTriggerDepth := p.post
    snum := (p.pre : ℚ) + (p.post : ℚ)
    TriggerSource := p.trigSource
    TriggerSlope := p.trigSlope
    ExtTriggerRange := p.extTrigRange
    ExtTriggerCoupling := p.extTrigCoupling
    OdometerCalibration :=
      if p.rawVersion / 100 < 321 / 100 then some p.odoCal else none
    NominalFrequency := p.nomFreq
    AntennaSeparation := p.antennaSep }

/-- Decoding the synthetic file header consumes exactly its tokens. -/
lemma decodeFileHeader_encode (channel : ℤ) (p : GeckoParams) (rest : List Tok) :
    decodeFileHeader channel (encodeFileHeader p ++ rest) =
      .ok (hdrOfParams channel p, rest) := by
  dsimp only [decodeFileHeader, encodeFileHeader, hdrOfParams, readTok,
    List.cons_append, List.nil_append, List.singleton_append, List.append_assoc]
  by_cases h1 : p.rawVersion / 100 < 321 / 100 <;>
  by_cases h2 : p.rawVersion / 100 < 38 / 10 <;>
  by_cases h3 : p.rawVersion / 100 < 36 / 10 <;>
  repeat'
    (first
    | (simp only [h1, h2, h3, if_true, ite_true, if_false, ite_false,
        readRun_replicate, List.append_assoc])
    | (dsimp only [readTok, List.cons_append, List.nil_append,
        List.singleton_append, List.append_assoc]))

/-- Decoding the synthetic channel headers consumes exactly their
tokens. -/
lemma chanLoop_encode (ver : ℚ) (nn : Nat) (chans : List ChanParams) (rest : List Tok) :
    ∃ out, chanLoop ver nn chans.length (encodeChanHeaders ver nn chans ++ rest) =
      .ok (out, rest) := by
  induction chans generalizing nn with
  | nil => exact ⟨([], [], []), rfl⟩
  | cons c cs ih =>
    obtain ⟨out, hout⟩ := ih (nn + 1)
    by_cases h3 : ver < 36 / 10 <;>
      simp [chanLoop, encodeChanHeaders, encodeChanHeader, h3,
        readRun_replicate, List.append_assoc, hout, -List.reduceReplicate]

/-- Encode one marker-type (`record-type = 1`) channel record at 1-based
channel `nn+1`: the common field block followed by the fixed on-disk
marker payload (which the decoder starts reading but never finishes:
it raises at the serial-time line). -/
def encodeMarkerRec (ver : ℚ) (nn : Nat) (r : TraceChanRec) : List Tok :=
  [⟨.u8, 1⟩, ⟨.u8, (nn : ℚ) + 1⟩] ++ encodeRecCommon ver r ++
  [⟨.i16, 0⟩, ⟨.i32, 0⟩, ⟨.f64, 0⟩, ⟨.f64, 0⟩, ⟨.f64, 0⟩, ⟨.f32, 0⟩, ⟨.f32, 0⟩]

/-- Encode one comment-type (`record-type = 2`) channel record at 1-based
channel `nn+1`: the common field block and nothing else — the source has
no payload branch for this type. -/
def encodeCommentRec (ver : ℚ) (nn : Nat) (r : TraceChanRec) : List Tok :=
  [⟨.u8, 2⟩, ⟨.u8, (nn : ℚ) + 1⟩] ++ encodeRecCommon ver r

/-- The accumulator transformation one data-type record at channel `nn+1`
performs: assign `newdata`, append the channel-1 scalars, append the
payload row at the selected output channel. -/
def dataStep (hd : GeckoHeader) (nn : Nat) (acc : TraceAcc) (r : TraceChanRec) :
    TraceAcc :=
  let acc1 : TraceAcc := { acc with newdata := some r.samples }
  let acc2 := readTraceChannels.appendAt1 hd nn acc1 r.trace_num r.decday
    r.trace_int r.trig_level
    (if hd.Version < 321 / 100 then some (r.odometer, r.pressure) else none)
    r.lat r.long r.elev r.gpsres
  if ((nn : ℤ) + 1) = hd.chan then { acc2 with data := acc2.data ++ [r.samples] }
  else acc2

/-- The accumulator transformation a comment-type record at channel `nn+1`
attempts: append the channel-1 scalars, then append the *stale* `newdata`
at the selected output channel — the unbound-local error if `newdata` was
never assigned. -/
def commentStep (hd : GeckoHeader) (nn : Nat) (acc : TraceAcc) (r : TraceChanRec) :
    Except GErr TraceAcc :=
  let acc2 := readTraceChannels.appendAt1 hd nn acc r.trace_num r.decday
    r.trace_int r.trig_level
    (if hd.Version < 321 / 100 then some (r.odometer, r.pressure) else none)
    r.lat r.long r.elev r.gpsres
  if ((nn : ℤ) + 1) = hd.chan then
    match acc2.newdata with
    | none => .error .unboundNewdata
    | some nd => .ok { acc2 with data := acc2.data ++ [nd] }
  else .ok acc2

/-- Folding one trace's data records over the accumulator, starting at
0-based channel `nn`. -/
def traceFold (hd : GeckoHeader) : Nat → TraceAcc → List TraceChanRec → TraceAcc
  | _, acc, [] => acc
  | nn, acc, r :: rs => traceFold hd (nn + 1) (dataStep hd nn acc r) rs

/-- Folding whole traces over the optional accumulator (the `nTrc == 1`
preallocation happens at the first trace). -/
def tracesFold (hd : GeckoHeader) :
    Option TraceAcc → List (List TraceChanRec) → Option TraceAcc
  | accOpt, [] => accOpt
  | accOpt, t :: ts =>
    tracesFold hd (some (traceFold hd 0 (accOpt.getD {}) t)) ts

/-- The payload rows one trace contributes to `data`: the samples of the
records whose 1-based channel position equals the selected channel. -/
def selChan (chan : ℤ) : Nat → List TraceChanRec → List (List ℚ)
  | _, [] => []
  | nn, r :: rs =>
    (if ((nn : ℤ) + 1) = chan then [r.samples] else []) ++ selChan chan (nn + 1) rs

/-- `appendAt1` never touches `newdata`. -/
lemma appendAt1_newdata (hd : GeckoHeader) (nn : Nat) (acc : TraceAcc)
    (tn dd ti tl : ℚ) (odpr : Option (ℚ × ℚ)) (la lo el gr : ℚ) :
    (readTraceChannels.appendAt1 hd nn acc tn dd ti tl odpr la lo el gr).newdata =
      acc.newdata := by
  unfold readTraceChannels.appendAt1
  split <;> rfl

/-- Processing one encoded data record advances the channel loop by one
step of `dataStep`. -/
lemma readTraceChannels_dataRec (hd : GeckoHeader) (snumN nn rem : Nat)
    (acc : TraceAcc) (r : TraceChanRec) (rest : List Tok)
    (hsn : r.samples.length = snumN) :
    readTraceChannels hd snumN nn (rem + 1) acc
        (encodeDataRec hd.Version nn r ++ rest) =
      readTraceChannels hd snumN (nn + 1) rem (dataStep hd nn acc r) rest := by
  subst hsn
  dsimp only [readTraceChannels, encodeDataRec, encodeRecCommon, readTok,
    List.cons_append, List.nil_append, List.singleton_append, List.append_assoc]
  by_cases h1 : hd.Version < 321 / 100 <;>
  by_cases h3 : hd.Version < 36 / 10 <;>
  by_cases h4 : hd.Version < 32 / 10 <;>
  · repeat'
      (first
      | (simp only [h1, h3, h4, if_true, ite_true, if_false, ite_false,
          readRun_replicate, readRun_map, List.append_assoc, ne_eq,
          eq_self_iff_true, not_true_eq_false, sub_add_cancel])
      | (dsimp only [readTok, List.cons_append, List.nil_append,
          List.singleton_append, List.append_assoc]))
    dsimp only [dataStep]
    by_cases hc : ((nn : ℤ) + 1) = hd.chan <;>
    · simp only [readTraceChannels.appendData, hc, h1, if_true, ite_true,
        if_false, ite_false, appendAt1_newdata]
      all_goals rfl

/-- Processing one encoded marker record reads the marker number, the
trace number and the serial-time float, then aborts the whole decode
with the date-addition `TypeError` — the `break` is never reached. -/
lemma readTraceChannels_markerRec (hd : GeckoHeader) (snumN nn rem : Nat)
    (acc : TraceAcc) (m : TraceChanRec) (rest : List Tok) :
    readTraceChannels hd snumN nn (rem + 1) acc
        (encodeMarkerRec hd.Version nn m ++ rest) = .error .markerDate := by
  have h10 : ((1 : ℚ) = 0) = False := by norm_num
  dsimp only [readTraceChannels, encodeMarkerRec, encodeRecCommon, readTok,
    List.cons_append, List.nil_append, List.singleton_append, List.append_assoc]
  by_cases h1 : hd.Version < 321 / 100 <;>
  by_cases h3 : hd.Version < 36 / 10 <;>
  by_cases h4 : hd.Version < 32 / 10 <;>
  · repeat'
      (first
      | (simp only [h1, h3, h4, h10, if_true, ite_true, if_false, ite_false,
          readRun_replicate, List.append_assoc, ne_eq,
          eq_self_iff_true, not_true_eq_false])
      | (dsimp only [readTok, List.cons_append, List.nil_append,
          List.singleton_append, List.append_assoc]))

/-- Processing one encoded comment record falls through to the append
stage with the stale `newdata` (one step of `commentStep`). -/
lemma readTraceChannels_commentRec (hd : GeckoHeader) (snumN nn rem : Nat)
    (acc : TraceAcc) (r : TraceChanRec) (rest : List Tok) :
    readTraceChannels hd snumN nn (rem + 1) acc
        (encodeCommentRec hd.Version nn r ++ rest) =
      match commentStep hd nn acc r with
      | .error e => .error e
      | .ok acc2 => readTraceChannels hd snumN (nn + 1) rem acc2 rest := by
  have h20 : ((2 : ℚ) = 0) = False := by norm_num
  have h21 : ((2 : ℚ) = 1) = False := by norm_num
  dsimp only [readTraceChannels, encodeCommentRec, encodeRecCommon, readTok,
    List.cons_append, List.nil_append, List.singleton_append, List.append_assoc]
  by_cases h1 : hd.Version < 321 / 100 <;>
  by_cases h3 : hd.Version < 36 / 10 <;>
  by_cases h4 : hd.Version < 32 / 10 <;>
  · repeat'
      (first
      | (simp only [h1, h3, h4, h20, h21, if_true, ite_true, if_false,
          ite_false, readRun_replicate, List.append_assoc, ne_eq,
          eq_self_iff_true, not_true_eq_false, sub_add_cancel])
      | (dsimp only [readTok, List.cons_append, List.nil_append,
          List.singleton_append, List.append_assoc]))
    dsimp only [commentStep]
    by_cases hc : ((nn : ℤ) + 1) = hd.chan <;>
    cases hnd : acc.newdata <;>
    · simp only [readTraceChannels.appendData, hc, h1, if_true, ite_true,
        if_false, ite_false, appendAt1_newdata, hnd]
      all_goals rfl

/-- A full trace of encoded data records folds the accumulator by
`traceFold` and consumes exactly its tokens. -/
lemma readTraceChannels_chans (hd : GeckoHeader) (snumN count nn : Nat)
    (rs : List TraceChanRec) (acc : TraceAcc) (rest : List Tok)
    (hcount : count = rs.length)
    (hs : ∀ r ∈ rs, r.samples.length = snumN) :
    readTraceChannels hd snumN nn count acc
        (encodeTraceChans hd.Version nn rs ++ rest) =
      .ok (traceFold hd nn acc rs, rest) := by
  subst hcount
  induction rs generalizing nn acc with
  | nil => rfl
  | cons r rs ih =>
    rw [show (r :: rs).length = rs.length + 1 from rfl,
      show encodeTraceChans hd.Version nn (r :: rs) =
        encodeDataRec hd.Version nn r ++ encodeTraceChans hd.Version (nn + 1) rs
        from rfl,
      List.append_assoc,
      readTraceChannels_dataRec hd snumN nn rs.length acc r _ (hs r (by simp)),
      show traceFold hd nn acc (r :: rs) =
        traceFold hd (nn + 1) (dataStep hd nn acc r) rs from rfl]
    exact ih (nn + 1) (dataStep hd nn acc r) (fun x hx => hs x (by simp [hx]))

/-- An encoded data record is never empty. -/
lemma encodeDataRec_length_pos (ver : ℚ) (nn : Nat) (r : TraceChanRec) :
    0 < (encodeDataRec ver nn r).length := by
  simp [encodeDataRec]

/-- Every nonempty trace contributes at least one token, so the trace
count bounds the encoded length. -/
lemma encodeTraces_length_ge (ver : ℚ) (ts : List (List TraceChanRec))
    (hne : ∀ t ∈ ts, t ≠ []) :
    ts.length ≤ (encodeTraces ver ts).length := by
  induction ts with
  | nil => simp
  | cons t ts ih =>
    obtain ⟨r, t', rfl⟩ := List.exists_cons_of_ne_nil (hne t (by simp))
    have h1 := encodeDataRec_length_pos ver 0 r
    have h2 := ih (fun x hx => hne x (by simp [hx]))
    simp only [show encodeTraces ver ((r :: t') :: ts) =
        (encodeDataRec ver 0 r ++ encodeTraceChans ver 1 t') ++ encodeTraces ver ts
        from rfl, List.length_append, List.length_cons]
    omega

/-- The trace loop over a stream of encoded full-data traces folds them
all and stops exactly at the end of the stream. -/
lemma traceLoop_encode (hd : GeckoHeader) (snumN nCh : Nat)
    (traces : List (List TraceChanRec)) :
    ∀ (fuel : Nat) (accOpt : Option TraceAcc),
    (∀ t ∈ traces, t.length = nCh) →
    (∀ t ∈ traces, ∀ r ∈ t, r.samples.length = snumN) →
    (∀ t ∈ traces, t ≠ []) →
    traces.length ≤ fuel →
    traceLoop hd snumN nCh fuel accOpt (encodeTraces hd.Version traces) =
      .ok (tracesFold hd accOpt traces, []) := by
  induction traces with
  | nil =>
    intro fuel accOpt _ _ _ _
    rw [traceLoop.eq_def]
    rfl
  | cons t ts ih =>
    intro fuel accOpt hlen hs hne hfuel
    obtain ⟨r, t', rfl⟩ := List.exists_cons_of_ne_nil (hne t (by simp))
    cases fuel with
    | zero => exact absurd hfuel (by simp)
    | succ f =>
      have hNE : ¬((encodeTraces hd.Version ((r :: t') :: ts)).isEmpty = true) := by
        simp [encodeTraces, encodeTraceChans, encodeDataRec]
      rw [traceLoop.eq_def]
      dsimp only
      rw [if_neg hNE]
      rw [show encodeTraces hd.Version ((r :: t') :: ts) =
        encodeTraceChans hd.Version 0 (r :: t') ++ encodeTraces hd.Version ts
        from rfl]
      rw [readTraceChannels_chans hd snumN nCh 0 (r :: t') (accOpt.getD {})
        (encodeTraces hd.Version ts) (hlen _ (by simp)).symm
        (fun x hx => hs _ (by simp) x hx)]
      rw [show tracesFold hd accOpt ((r :: t') :: ts) =
        tracesFold hd (some (traceFold hd 0 (accOpt.getD {}) (r :: t'))) ts
        from rfl]
      exact ih f _ (fun x hx => hlen x (by simp [hx]))
        (fun x hx => hs x (by simp [hx])) (fun x hx => hne x (by simp [hx]))
        (by simp at hfuel ⊢; omega)

/-- Away from channel 1, `dataStep` leaves every per-trace scalar column
unchanged. -/
lemma dataStep_scalars (hd : GeckoHeader) (m : Nat) (acc : TraceAcc)
    (r : TraceChanRec) :
    (dataStep hd (m + 1) acc r).trace_num = acc.trace_num ∧
    (dataStep hd (m + 1) acc r).decday = acc.decday ∧
    (dataStep hd (m + 1) acc r).trace_int = acc.trace_int ∧
    (dataStep hd (m + 1) acc r).trig_level = acc.trig_level ∧
    (dataStep hd (m + 1) acc r).Odometer = acc.Odometer ∧
    (dataStep hd (m + 1) acc r).pressure = acc.pressure ∧
    (dataStep hd (m + 1) acc r).lat = acc.lat ∧
    (dataStep hd (m + 1) acc r).long = acc.long ∧
    (dataStep hd (m + 1) acc r).elev = acc.elev ∧
    (dataStep hd (m + 1) acc r).GPSResolution = acc.GPSResolution := by
  dsimp only [dataStep]
  unfold readTraceChannels.appendAt1
  rw [if_neg (by omega : ¬(m + 1 + 1 = 1))]
  split <;> exact ⟨rfl, rfl, rfl, rfl, rfl, rfl, rfl, rfl, rfl, rfl⟩

/-- At channel 1, `dataStep` appends the record's scalars to every
per-trace column. -/
lemma dataStep_zero_scalars (hd : GeckoHeader) (acc : TraceAcc)
    (r : TraceChanRec) :
    (dataStep hd 0 acc r).trace_num = acc.trace_num ++ [r.trace_num] ∧
    (dataStep hd 0 acc r).decday = acc.decday ++ [r.decday] ∧
    (dataStep hd 0 acc r).trace_int = acc.trace_int ++ [r.trace_int] ∧
    (dataStep hd 0 acc r).trig_level = acc.trig_level ++ [r.trig_level] ∧
    (dataStep hd 0 acc r).lat = acc.lat ++ [r.lat] ∧
    (dataStep hd 0 acc r).long = acc.long ++ [r.long] ∧
    (dataStep hd 0 acc r).elev = acc.elev ++ [r.elev] ∧
    (dataStep hd 0 acc r).GPSResolution = acc.GPSResolution ++ [r.gpsres] := by
  dsimp only [dataStep]
  unfold readTraceChannels.appendAt1
  rw [if_pos rfl]
  by_cases h1 : hd.Version < 321 / 100 <;>
    split <;> simp [h1]

/-- `dataStep` appends the payload row exactly at the selected output
channel. -/
lemma dataStep_data (hd : GeckoHeader) (nn : Nat) (acc : TraceAcc)
    (r : TraceChanRec) :
    (dataStep hd nn acc r).data =
      acc.data ++ (if ((nn : ℤ) + 1) = hd.chan then [r.samples] else []) := by
  dsimp only [dataStep]
  unfold readTraceChannels.appendAt1
  by_cases hc : ((nn : ℤ) + 1) = hd.chan <;>
    simp [hc, apply_ite TraceAcc.data, ite_self]

/-- Channels past the first never touch the scalar columns. -/
lemma traceFold_scalars_succ (hd : GeckoHeader) (t : List TraceChanRec) :
    ∀ (m : Nat) (acc : TraceAcc),
    (traceFold hd (m + 1) acc t).trace_num = acc.trace_num ∧
    (traceFold hd (m + 1) acc t).decday = acc.decday ∧
    (traceFold hd (m + 1) acc t).trace_int = acc.trace_int ∧
    (traceFold hd (m + 1) acc t).trig_level = acc.trig_level ∧
    (traceFold hd (m + 1) acc t).lat = acc.lat ∧
    (traceFold hd (m + 1) acc t).long = acc.long ∧
    (traceFold hd (m + 1) acc t).elev = acc.elev ∧
    (traceFold hd (m + 1) acc t).GPSResolution = acc.GPSResolution := by
  induction t with
  | nil => exact fun m acc => ⟨rfl, rfl, rfl, rfl, rfl, rfl, rfl, rfl⟩
  | cons r t ih =>
    intro m acc
    rw [show traceFold hd (m + 1) acc (r :: t) =
      traceFold hd (m + 2) (dataStep hd (m + 1) acc r) t from rfl]
    obtain ⟨e1, e2, e3, e4, e5, e6, e7, e8, e9, e10⟩ :=
      dataStep_scalars hd m acc r
    obtain ⟨f1, f2, f3, f4, f5, f6, f7, f8⟩ :=
      ih (m + 1) (dataStep hd (m + 1) acc r)
    exact ⟨f1.trans e1, f2.trans e2, f3.trans e3, f4.trans e4,
      f5.trans e7, f6.trans e8, f7.trans e9, f8.trans e10⟩

/-- A whole trace appends exactly its channel-1 scalars to the scalar
columns. -/
lemma traceFold_cons_scalars (hd : GeckoHeader) (r : TraceChanRec)
    (t : List TraceChanRec) (acc : TraceAcc) :
    (traceFold hd 0 acc (r :: t)).trace_num = acc.trace_num ++ [r.trace_num] ∧
    (traceFold hd 0 acc (r :: t)).decday = acc.decday ++ [r.decday] ∧
    (traceFold hd 0 acc (r :: t)).trace_int = acc.trace_int ++ [r.trace_int] ∧
    (traceFold hd 0 acc (r :: t)).trig_level = acc.trig_level ++ [r.trig_level] ∧
    (traceFold hd 0 acc (r :: t)).lat = acc.lat ++ [r.lat] ∧
    (traceFold hd 0 acc (r :: t)).long = acc.long ++ [r.long] ∧
    (traceFold hd 0 acc (r :: t)).elev = acc.elev ++ [r.elev] ∧
    (traceFold hd 0 acc (r :: t)).GPSResolution =
      acc.GPSResolution ++ [r.gpsres] := by
  rw [show traceFold hd 0 acc (r :: t) =
    traceFold hd 1 (dataStep hd 0 acc r) t from rfl]
  obtain ⟨e1, e2, e3, e4, e5, e6, e7, e8⟩ := dataStep_zero_scalars hd acc r
  obtain ⟨f1, f2, f3, f4, f5, f6, f7, f8⟩ :=
    traceFold_scalars_succ hd t 0 (dataStep hd 0 acc r)
  exact ⟨f1.trans e1, f2.trans e2, f3.trans e3, f4.trans e4,
    f5.trans e5, f6.trans e6, f7.trans e7, f8.trans e8⟩

/-- A whole trace appends exactly its selected-channel payload rows to
`data`. -/
lemma traceFold_data (hd : GeckoHeader) (t : List TraceChanRec) :
    ∀ (nn : Nat) (acc : TraceAcc),
    (traceFold hd nn acc t).data = acc.data ++ selChan hd.chan nn t := by
  induction t with
  | nil => intro nn acc; simp [traceFold, selChan]
  | cons r t ih =>
    intro nn acc
    rw [show traceFold hd nn acc (r :: t) =
      traceFold hd (nn + 1) (dataStep hd nn acc r) t from rfl,
      ih (nn + 1) (dataStep hd nn acc r), dataStep_data,
      show selChan hd.chan nn (r :: t) =
        (if ((nn : ℤ) + 1) = hd.chan then [r.samples] else []) ++
          selChan hd.chan (nn + 1) t from rfl,
      List.append_assoc]

/-- Positions before the selected channel contribute nothing. -/
lemma selChan_nil_of_lt (chan : ℤ) (t : List TraceChanRec) :
    ∀ (nn : Nat), chan < (nn : ℤ) + 1 → selChan chan nn t = [] := by
  induction t with
  | nil => intro nn _; rfl
  | cons r t ih =>
    intro nn h
    rw [show selChan chan nn (r :: t) =
      (if ((nn : ℤ) + 1) = chan then [r.samples] else []) ++
        selChan chan (nn + 1) t from rfl,
      if_neg (by omega), ih (nn + 1) (by push_cast; omega)]
    rfl

/-- With the selected channel at 1-based position `c+1` inside the trace,
the contributed rows are exactly the samples of record `c`. -/
lemma selChan_pos (t : List TraceChanRec) :
    ∀ (c nn : Nat), c < t.length →
    selChan ((nn : ℤ) + (c : ℤ) + 1) nn t = [(t.getD c emptyChanRec).samples] := by
  induction t with
  | nil => intro c nn h; simp at h
  | cons r t ih =>
    intro c nn h
    rw [show selChan ((nn : ℤ) + (c : ℤ) + 1) nn (r :: t) =
      (if ((nn : ℤ) + 1) = (nn : ℤ) + (c : ℤ) + 1 then [r.samples] else []) ++
        selChan ((nn : ℤ) + (c : ℤ) + 1) (nn + 1) t from rfl]
    cases c with
    | zero =>
      rw [if_pos (by push_cast; omega)]
      rw [selChan_nil_of_lt _ t (nn + 1) (by push_cast; omega)]
      rfl
    | succ c =>
      rw [if_neg (by push_cast; omega)]
      rw [show ((nn : ℤ) + ((c + 1 : Nat) : ℤ) + 1) =
        (((nn + 1 : Nat) : ℤ) + (c : ℤ) + 1) from by push_cast; omega]
      rw [ih c (nn + 1) (by simpa using Nat.lt_of_succ_lt_succ h)]
      rfl

/-- Folding further whole traces over a live accumulator appends, trace
by trace, the channel-1 scalars and the selected-channel payload rows. -/
lemma tracesFold_spec (hd : GeckoHeader) (ts : List (List TraceChanRec)) :
    ∀ acc : TraceAcc, (∀ t ∈ ts, t ≠ []) →
    ∃ acc', tracesFold hd (some acc) ts = some acc' ∧
      acc'.trace_num = acc.trace_num ++
        ts.map (fun t => (t.headD emptyChanRec).trace_num) ∧
      acc'.decday = acc.decday ++
        ts.map (fun t => (t.headD emptyChanRec).decday) ∧
      acc'.trace_int = acc.trace_int ++
        ts.map (fun t => (t.headD emptyChanRec).trace_int) ∧
      acc'.trig_level = acc.trig_level ++
        ts.map (fun t => (t.headD emptyChanRec).trig_level) ∧
      acc'.lat = acc.lat ++ ts.map (fun t => (t.headD emptyChanRec).lat) ∧
      acc'.long = acc.long ++ ts.map (fun t => (t.headD emptyChanRec).long) ∧
      acc'.elev = acc.elev ++ ts.map (fun t => (t.headD emptyChanRec).elev) ∧
      acc'.GPSResolution = acc.GPSResolution ++
        ts.map (fun t => (t.headD emptyChanRec).gpsres) ∧
      acc'.data = acc.data ++ ts.flatMap (fun t => selChan hd.chan 0 t) := by
  induction ts with
  | nil => exact fun acc _ => ⟨acc, rfl, by simp⟩
  | cons t ts ih =>
    intro acc hne
    obtain ⟨r, t', rfl⟩ := List.exists_cons_of_ne_nil (hne t (by simp))
    rw [show tracesFold hd (some acc) ((r :: t') :: ts) =
      tracesFold hd (some (traceFold hd 0 acc (r :: t'))) ts from rfl]
    obtain ⟨acc', hfold, p1, p2, p3, p4, p5, p6, p7, p8, p9⟩ :=
      ih (traceFold hd 0 acc (r :: t')) (fun x hx => hne x (by simp [hx]))
    obtain ⟨e1, e2, e3, e4, e5, e6, e7, e8⟩ := traceFold_cons_scalars hd r t' acc
    refine ⟨acc', hfold, ?_, ?_, ?_, ?_, ?_, ?_, ?_, ?_, ?_⟩ <;>
      simp [p1, p2, p3, p4, p5, p6, p7, p8, p9, e1, e2, e3, e4, e5, e6, e7, e8,
        traceFold_data]

/-- A map by singleton-valued functions is a `flatMap`. -/
lemma flatMap_singleton_eq_map {α β : Type} (f : α → List β) (g : α → β)
    (l : List α) (h : ∀ a ∈ l, f a = [g a]) : l.flatMap f = l.map g := by
  induction l with
  | nil => rfl
  | cons a l ih =>
    simp only [List.flatMap_cons, List.map_cons, h a (by simp),
      ih (fun x hx => h x (by simp [hx]))]
    rfl

/-- `dataStep` always leaves `newdata` holding the record's payload. -/
lemma dataStep_newdata (hd : GeckoHeader) (nn : Nat) (acc : TraceAcc)
    (r : TraceChanRec) :
    (dataStep hd nn acc r).newdata = some r.samples := by
  dsimp only [dataStep]
  by_cases hc : ((nn : ℤ) + 1) = hd.chan <;>
    simp [hc, appendAt1_newdata]

/-- `appendAt1` never touches `data`. -/
lemma appendAt1_data (hd : GeckoHeader) (nn : Nat) (acc : TraceAcc)
    (tn dd ti tl : ℚ) (odpr : Option (ℚ × ℚ)) (la lo el gr : ℚ) :
    (readTraceChannels.appendAt1 hd nn acc tn dd ti tl odpr la lo el gr).data =
      acc.data := by
  unfold readTraceChannels.appendAt1
  split <;> rfl

/-- A channel-index byte that differs from the expected 1-based position
makes the channel-header loop raise the corrupt-channel error. -/
lemma chanLoop_mismatch (ver : ℚ) (nn rem : Nat) (cbad : ℚ) (rest : List Tok)
    (h : cbad ≠ (nn : ℚ) + 1) :
    chanLoop ver nn (rem + 1) (⟨.u8, cbad⟩ :: rest) = .error .corruptChannel := by
  rw [show chanLoop ver nn (rem + 1) (⟨.u8, cbad⟩ :: rest) =
    (match readTok .u8 (⟨.u8, cbad⟩ :: rest) with
     | .error e => .error e
     | .ok (c, s) =>
       if c ≠ ((nn : ℚ) + 1) then .error .corruptChannel
       else
         match readTok .i16 s with
         | .error e => .error e
         | .ok (vr, s) =>
         match readTok .u8 s with
         | .error e => .error e
         | .ok (im, s) =>
         match readTok .u8 s with
         | .error e => .error e
         | .ok (cp, s) =>
         match (if ver < 36 / 10 then
             (match readRun .i8 27 s with
             | .error e => .error e
             | .ok (_, s) => .ok s : Except GErr (List Tok))
           else .ok s) with
         | .error e => .error e
         | .ok s =>
         match chanLoop ver (nn + 1) rem s with
         | .error e => .error e
         | .ok ((vrs, ims, cps), s) =>
           .ok ((vr :: vrs, im :: ims, cp :: cps), s)) from rfl]
  rw [readTok_cons]
  dsimp only
  rw [if_pos h]

/-- A channel-index byte in a trace record that differs from the expected
1-based position makes the trace decoder raise the corrupt-channel
error, whatever has been accumulated. -/
lemma readTraceChannels_mismatch (hd : GeckoHeader) (snumN nn rem : Nat)
    (acc : TraceAcc) (tb cbad : ℚ) (rest : List Tok)
    (h : cbad ≠ (nn : ℚ) + 1) :
    readTraceChannels hd snumN nn (rem + 1) acc
      (⟨.u8, tb⟩ :: ⟨.u8, cbad⟩ :: rest) = .error .corruptChannel := by
  rw [readTraceChannels.eq_def]
  dsimp only
  rw [readTok_cons]
  dsimp only
  rw [readTok_cons]
  dsimp only
  rw [if_pos h]

/-- If the channel-header loop fails after a run of well-formed headers,
the whole loop fails with the same error: nothing accumulated so far is
returned. -/
lemma chanLoop_encode_error (ver : ℚ) (good : List ChanParams) :
    ∀ (nn rem : Nat) (rest : List Tok) (e : GErr),
    chanLoop ver (nn + good.length) rem rest = .error e →
    chanLoop ver nn (good.length + rem) (encodeChanHeaders ver nn good ++ rest) =
      .error e := by
  induction good with
  | nil => intro nn rem rest e h; simpa using h
  | cons c cs ih =>
    intro nn rem rest e h
    rw [show (c :: cs).length + rem = (cs.length + rem) + 1 from by
      simp; omega]
    rw [show encodeChanHeaders ver nn (c :: cs) ++ rest =
      encodeChanHeader ver nn c ++ (encodeChanHeaders ver (nn + 1) cs ++ rest)
      from by simp [encodeChanHeaders]]
    have step := ih (nn + 1) rem rest e (by
      rw [show (nn + 1) + cs.length = nn + (c :: cs).length from by simp; omega]
      exact h)
    by_cases h3 : ver < 36 / 10 <;>
      simp [chanLoop, encodeChanHeader, h3, readRun_replicate,
        List.append_assoc, step, -List.reduceReplicate]

/-- If the trace-record channel loop fails after a run of well-formed
data records, the whole call fails with the same error. -/
lemma readTraceChannels_encode_error (hd : GeckoHeader) (snumN : Nat)
    (good : List TraceChanRec) :
    ∀ (nn rem : Nat) (rest : List Tok) (e : GErr),
    (∀ r ∈ good, r.samples.length = snumN) →
    (∀ acc, readTraceChannels hd snumN (nn + good.length) rem acc rest = .error e) →
    ∀ acc, readTraceChannels hd snumN nn (good.length + rem) acc
      (encodeTraceChans hd.Version nn good ++ rest) = .error e := by
  induction good with
  | nil => intro nn rem rest e _ h acc; simpa using h acc
  | cons r rs ih =>
    intro nn rem rest e hs h acc
    rw [show (r :: rs).length + rem = (rs.length + rem) + 1 from by
      simp; omega]
    rw [show encodeTraceChans hd.Version nn (r :: rs) ++ rest =
      encodeDataRec hd.Version nn r ++ (encodeTraceChans hd.Version (nn + 1) rs ++ rest)
      from by simp [encodeTraceChans]]
    rw [readTraceChannels_dataRec hd snumN nn (rs.length + rem) acc r _
      (hs r (by simp))]
    exact ih (nn + 1) rem rest e (fun x hx => hs x (by simp [hx]))
      (fun a => by
        rw [show (nn + 1) + rs.length = nn + (r :: rs).length from by simp; omega]
        exact h a)
      (dataStep hd nn acc r)

/-- The first trace's `nTrc == 1` preallocation starts from the empty
accumulator. -/
lemma tracesFold_none (hd : GeckoHeader) (t : List TraceChanRec)
    (ts : List (List TraceChanRec)) :
    tracesFold hd none (t :: ts) = tracesFold hd (some {}) (t :: ts) := rfl

lemma hdrOfParams_Version (ch : ℤ) (p : GeckoParams) :
    (hdrOfParams ch p).Version = p.rawVersion / 100 := rfl

lemma hdrOfParams_nChannels (ch : ℤ) (p : GeckoParams) :
    (hdrOfParams ch p).nChannels = (p.nChannels : ℚ) := rfl

lemma hdrOfParams_snum (ch : ℤ) (p : GeckoParams) :
    (hdrOfParams ch p).snum = (p.pre : ℚ) + (p.post : ℚ) := rfl

lemma hdrOfParams_chan (ch : ℤ) (p : GeckoParams) :
    (hdrOfParams ch p).chan = ch := rfl

/-- The transpose has one row per sample. -/
lemma transposeMat_length (snum : Nat) (rows : List (List ℚ)) :
    (transposeMat snum rows).length = snum := by
  simp [transposeMat]

/-- Every row of the transpose has one entry per original row. -/
lemma transposeMat_row_length (snum : Nat) (rows : List (List ℚ)) :
    ∀ row ∈ transposeMat snum rows, row.length = rows.length := by
  intro row hrow
  simp only [transposeMat, List.mem_map] at hrow
  obtain ⟨i, _, rfl⟩ := hrow
  simp

/-- **C1** (amended).  Decoding a synthetic stream of a file header, `N`
channel headers and `M ≥ 1` full data traces yields `tnum = M`, `data` of
shape `(snum, M)` whose columns are the selected channel's payloads, and
per-trace scalar sequences equal to the channel-1 values injected — for
trace number, acquisition day, trace interval, latitude, longitude,
elevation and GPS accuracy, but *not* for trigger level: finalization
overwrites `trig_level` with zeros. -/
theorem gecko_roundtrip (p : GeckoParams) (chans : List ChanParams)
    (traces : List (List TraceChanRec)) (c : Nat)
    (hch : chans.length = p.nChannels)
    (hlen : ∀ t ∈ traces, t.length = p.nChannels)
    (hs : ∀ t ∈ traces, ∀ r ∈ t, r.samples.length = p.pre + p.post)
    (hc : c < p.nChannels)
    (htne : traces ≠ []) :
    ∃ g, gecko ((c : ℤ) + 1) (encodeStream p chans traces) = .ok g ∧
      g.tnum = traces.length ∧
      g.trace_num = traces.map (fun t => (t.headD emptyChanRec).trace_num) ∧
      g.decday = traces.map (fun t => (t.headD emptyChanRec).decday) ∧
      g.trace_int = traces.map (fun t => (t.headD emptyChanRec).trace_int) ∧
      g.lat = traces.map (fun t => (t.headD emptyChanRec).lat) ∧
      g.long = traces.map (fun t => (t.headD emptyChanRec).long) ∧
      g.elev = traces.map (fun t => (t.headD emptyChanRec).elev) ∧
      g.GPSResolution = traces.map (fun t => (t.headD emptyChanRec).gpsres) ∧
      g.trig_level = List.replicate traces.length 0 ∧
      g.data = transposeMat (p.pre + p.post)
        (traces.map (fun t => (t.getD c emptyChanRec).samples)) ∧
      g.data.length = p.pre + p.post ∧
      (∀ row ∈ g.data, row.length = traces.length) := by
  have hne : ∀ t ∈ traces, t ≠ [] := by
    intro t ht h
    have hl := hlen t ht
    rw [h] at hl
    simp at hl
    omega
  dsimp only [gecko, encodeStream]
  rw [List.append_assoc, decodeFileHeader_encode]
  dsimp only
  simp only [hdrOfParams_Version, hdrOfParams_nChannels, hdrOfParams_snum]
  have hnch : ((⌊((p.nChannels : ℚ))⌋).toNat) = chans.length := by
    rw [Int.floor_natCast, Int.toNat_natCast, hch]
  rw [hnch]
  obtain ⟨outc, houtc⟩ := chanLoop_encode (p.rawVersion / 100) 0 chans
    (encodeTraces (p.rawVersion / 100) traces)
  rw [houtc]
  dsimp only
  have hsnum : ((⌊((p.pre : ℚ) + (p.post : ℚ))⌋).toNat) = p.pre + p.post := by
    rw [show ((p.pre : ℚ) + (p.post : ℚ)) = (((p.pre + p.post : Nat)) : ℚ) from by
      push_cast; ring, Int.floor_natCast, Int.toNat_natCast]
  rw [hsnum]
  rw [show encodeTraces (p.rawVersion / 100) traces =
    encodeTraces ((hdrOfParams ((c : ℤ) + 1) p).Version) traces from rfl]
  rw [traceLoop_encode (hdrOfParams ((c : ℤ) + 1) p) (p.pre + p.post)
    chans.length traces _ none
    (fun t ht => (hlen t ht).trans hch.symm)
    (fun t ht => hs t ht) hne
    (le_trans (encodeTraces_length_ge _ _ hne) (Nat.le_succ _))]
  obtain ⟨t0, ts, rfl⟩ := List.exists_cons_of_ne_nil htne
  rw [tracesFold_none]
  obtain ⟨acc', hfold, p1, p2, p3, p4, p5, p6, p7, p8, p9⟩ :=
    tracesFold_spec (hdrOfParams ((c : ℤ) + 1) p) (t0 :: ts) {} hne
  rw [hfold]
  dsimp only
  simp only [hdrOfParams_chan] at p9
  have hflat : (t0 :: ts).flatMap (fun t => selChan ((c : ℤ) + 1) 0 t) =
      (t0 :: ts).map (fun t => (t.getD c emptyChanRec).samples) := by
    refine flatMap_singleton_eq_map _ _ _ (fun t ht => ?_)
    have hlt : c < t.length := by rw [hlen t ht]; exact hc
    have := selChan_pos t c 0 hlt
    simpa using this
  have hdata : acc'.data =
      (t0 :: ts).map (fun t => (t.getD c emptyChanRec).samples) := by
    rw [p9, hflat]
    rfl
  refine ⟨_, rfl, ?_, ?_, ?_, ?_, ?_, ?_, ?_, ?_, ?_, ?_, ?_, ?_⟩
  · simp [hdata]
  · simpa using p1
  · simpa using p2
  · simpa using p3
  · simpa using p5
  · simpa using p6
  · simpa using p7
  · simpa using p8
  · simp [hdata]
  · simp [hdata]
  · simp [hdata, transposeMat_length]
  · intro row hrow
    have := transposeMat_row_length (p.pre + p.post) acc'.data row (by simpa using hrow)
    simpa [hdata] using this

/-- **C8**.  A channel-index byte that differs from its expected 1-based
position — after any run of well-formed channel headers, or after any
run of well-formed data records inside the first trace — makes the whole
decode return the corrupt-channel error and nothing else: no partial
per-trace columns are exposed. -/
theorem gecko_corrupt_channel :
    (∀ (channel : ℤ) (p : GeckoParams) (good : List ChanParams) (cbad : ℚ)
       (rest : List Tok),
      good.length < p.nChannels →
      cbad ≠ (good.length : ℚ) + 1 →
      gecko channel (encodeFileHeader p ++
          (encodeChanHeaders (p.rawVersion / 100) 0 good ++ ⟨.u8, cbad⟩ :: rest)) =
        .error .corruptChannel) ∧
    (∀ (channel : ℤ) (p : GeckoParams) (chans : List ChanParams)
       (good : List TraceChanRec) (tb cbad : ℚ) (rest : List Tok),
      chans.length = p.nChannels →
      good.length < p.nChannels →
      (∀ r ∈ good, r.samples.length = p.pre + p.post) →
      cbad ≠ (good.length : ℚ) + 1 →
      gecko channel (encodeFileHeader p ++
          (encodeChanHeaders (p.rawVersion / 100) 0 chans ++
            (encodeTraceChans (p.rawVersion / 100) 0 good ++
              ⟨.u8, tb⟩ :: ⟨.u8, cbad⟩ :: rest))) =
        .error .corruptChannel) := by
  constructor
  · intro channel p good cbad rest hlt hne
    dsimp only [gecko]
    rw [decodeFileHeader_encode]
    dsimp only
    simp only [hdrOfParams_Version, hdrOfParams_nChannels]
    rw [show ((⌊((p.nChannels : ℚ))⌋).toNat) = p.nChannels from by
      rw [Int.floor_natCast, Int.toNat_natCast]]
    obtain ⟨d, hd⟩ : ∃ d, p.nChannels = good.length + (d + 1) :=
      ⟨p.nChannels - good.length - 1, by omega⟩
    rw [hd]
    rw [chanLoop_encode_error (p.rawVersion / 100) good 0 (d + 1)
      (⟨.u8, cbad⟩ :: rest) .corruptChannel
      (chanLoop_mismatch _ _ d cbad rest (by simpa using hne))]
  · intro channel p chans good tb cbad rest hch hlt hgs hne
    dsimp only [gecko]
    rw [decodeFileHeader_encode]
    dsimp only
    simp only [hdrOfParams_Version, hdrOfParams_nChannels]
    rw [show ((⌊((p.nChannels : ℚ))⌋).toNat) = p.nChannels from by
      rw [Int.floor_natCast, Int.toNat_natCast]]
    rw [← hch]
    obtain ⟨out, hout⟩ := chanLoop_encode (p.rawVersion / 100) 0 chans
      (encodeTraceChans (p.rawVersion / 100) 0 good ++ ⟨.u8, tb⟩ :: ⟨.u8, cbad⟩ :: rest)
    rw [hout]
    dsimp only
    rw [traceLoop.eq_def]
    dsimp only
    rw [if_neg (by simp [List.isEmpty_iff])]
    rw [hch]
    obtain ⟨d, hd⟩ : ∃ d, p.nChannels = good.length + (d + 1) :=
      ⟨p.nChannels - good.length - 1, by omega⟩
    rw [hd]
    simp only [hdrOfParams_snum]
    rw [show ((⌊((p.pre : ℚ) + (p.post : ℚ))⌋).toNat) = p.pre + p.post from by
      rw [show ((p.pre : ℚ) + (p.post : ℚ)) = (((p.pre + p.post : Nat)) : ℚ) from by
        push_cast; ring, Int.floor_natCast, Int.toNat_natCast]]
    rw [show encodeTraceChans (p.rawVersion / 100) 0 good =
      encodeTraceChans ((hdrOfParams channel p).Version) 0 good from rfl]
    rw [readTraceChannels_encode_error (hdrOfParams channel p) _ good 0 (d + 1)
      (⟨.u8, tb⟩ :: ⟨.u8, cbad⟩ :: rest) .corruptChannel hgs
      (fun a => readTraceChannels_mismatch (hdrOfParams channel p) _ _ d a tb cbad
        rest (by simpa using hne))
      _]

/-- **C9** (actual behavior).  A marker record on channel 2 of the first
trace of a 2-channel file read on channel 1 does not truncate the trace
and resume: after its marker number, trace number and serial-time float
are read, the serial-time line adds a bare `datetime.date` to the float
array and raises `TypeError`, aborting the whole decode — whatever
bytes follow are never reached. -/
theorem gecko_marker_aborts (p : GeckoParams) (chans : List ChanParams)
    (r1 m : TraceChanRec) (rest : List Tok)
    (hnch : p.nChannels = 2)
    (hch : chans.length = 2)
    (hr1 : r1.samples.length = p.pre + p.post) :
    gecko 1 (encodeFileHeader p ++
        (encodeChanHeaders (p.rawVersion / 100) 0 chans ++
          (encodeDataRec (p.rawVersion / 100) 0 r1 ++
            (encodeMarkerRec (p.rawVersion / 100) 1 m ++ rest)))) =
      .error .markerDate := by
  dsimp only [gecko]
  rw [decodeFileHeader_encode]
  dsimp only
  simp only [hdrOfParams_Version, hdrOfParams_nChannels, hdrOfParams_snum]
  rw [show ((⌊((p.nChannels : ℚ))⌋).toNat) = p.nChannels from by
    rw [Int.floor_natCast, Int.toNat_natCast], hnch, ← hch]
  obtain ⟨out, hout⟩ := chanLoop_encode (p.rawVersion / 100) 0 chans
    (encodeDataRec (p.rawVersion / 100) 0 r1 ++
      (encodeMarkerRec (p.rawVersion / 100) 1 m ++ rest))
  rw [hout]
  dsimp only
  rw [hch]
  rw [show ((⌊((p.pre : ℚ) + (p.post : ℚ))⌋).toNat) = p.pre + p.post from by
    rw [show ((p.pre : ℚ) + (p.post : ℚ)) = (((p.pre + p.post : Nat)) : ℚ) from by
      push_cast; ring, Int.floor_natCast, Int.toNat_natCast]]
  rw [traceLoop.eq_def]
  dsimp only
  rw [if_neg (by simp [List.isEmpty_iff, encodeDataRec])]
  dsimp only [Option.getD]
  rw [show encodeDataRec (p.rawVersion / 100) 0 r1 =
    encodeDataRec ((hdrOfParams 1 p).Version) 0 r1 from rfl,
    readTraceChannels_dataRec (hdrOfParams 1 p) (p.pre + p.post) 0 1 _ r1 _ hr1]
  rw [show encodeMarkerRec (p.rawVersion / 100) 1 m =
    encodeMarkerRec ((hdrOfParams 1 p).Version) 1 m from rfl,
    readTraceChannels_markerRec (hdrOfParams 1 p) (p.pre + p.post) 1 0 _ m rest]
  all_goals rfl

/-- **C10** (amended).  The trace decoder has no branch for record type 2
(comment); whether the decode survives depends only on whether the local
`newdata` was assigned by an *earlier data record on any channel*: (a) if
the very first record the loop meets is a comment on the selected
channel, the append of the sample column hits the unbound local and the
decode fails; (b) if a comment record on the selected channel follows an
earlier data record, the decode succeeds and the earlier record's sample
payload is appended a second time. -/
theorem gecko_comment_newdata :
    (∀ (p : GeckoParams) (chans : List ChanParams) (r : TraceChanRec)
       (rest : List Tok),
      chans.length = p.nChannels →
      0 < p.nChannels →
      gecko 1 (encodeFileHeader p ++
          (encodeChanHeaders (p.rawVersion / 100) 0 chans ++
            (encodeCommentRec (p.rawVersion / 100) 0 r ++ rest))) =
        .error .unboundNewdata) ∧
    (∀ (p : GeckoParams) (chans : List ChanParams) (r1 r2 : TraceChanRec),
      chans.length = p.nChannels →
      p.nChannels = 1 →
      r1.samples.length = p.pre + p.post →
      ∃ g, gecko 1 (encodeFileHeader p ++
          (encodeChanHeaders (p.rawVersion / 100) 0 chans ++
            (encodeDataRec (p.rawVersion / 100) 0 r1 ++
              encodeCommentRec (p.rawVersion / 100) 0 r2))) = .ok g ∧
        g.tnum = 2 ∧
        g.data = transposeMat (p.pre + p.post) [r1.samples, r1.samples]) := by
  constructor
  · intro p chans r rest hch hpos
    dsimp only [gecko]
    rw [decodeFileHeader_encode]
    dsimp only
    simp only [hdrOfParams_Version, hdrOfParams_nChannels]
    rw [show ((⌊((p.nChannels : ℚ))⌋).toNat) = p.nChannels from by
      rw [Int.floor_natCast, Int.toNat_natCast], ← hch]
    obtain ⟨out, hout⟩ := chanLoop_encode (p.rawVersion / 100) 0 chans
      (encodeCommentRec (p.rawVersion / 100) 0 r ++ rest)
    rw [hout]
    dsimp only
    rw [hch]
    obtain ⟨d, hd⟩ : ∃ d, p.nChannels = d + 1 := ⟨p.nChannels - 1, by omega⟩
    rw [hd]
    rw [traceLoop.eq_def]
    dsimp only
    rw [if_neg (by simp [List.isEmpty_iff, encodeCommentRec])]
    dsimp only [Option.getD]
    rw [show encodeCommentRec (p.rawVersion / 100) 0 r =
      encodeCommentRec ((hdrOfParams 1 p).Version) 0 r from rfl,
      readTraceChannels_commentRec (hdrOfParams 1 p) _ 0 d {} r rest]
    have hstep : commentStep (hdrOfParams 1 p) 0 {} r = .error .unboundNewdata := by
      dsimp only [commentStep]
      rw [if_pos (by rw [hdrOfParams_chan]; rfl : ((0 : Nat) : ℤ) + 1 = (hdrOfParams 1 p).chan)]
      rw [appendAt1_newdata]
      all_goals rfl
    rw [hstep]
  · intro p chans r1 r2 hch h1 hr1
    dsimp only [gecko]
    rw [decodeFileHeader_encode]
    dsimp only
    simp only [hdrOfParams_Version, hdrOfParams_nChannels, hdrOfParams_snum]
    rw [show ((⌊((p.nChannels : ℚ))⌋).toNat) = p.nChannels from by
      rw [Int.floor_natCast, Int.toNat_natCast], ← hch]
    obtain ⟨out, hout⟩ := chanLoop_encode (p.rawVersion / 100) 0 chans
      (encodeDataRec (p.rawVersion / 100) 0 r1 ++
        encodeCommentRec (p.rawVersion / 100) 0 r2)
    rw [hout]
    dsimp only
    rw [hch, h1]
    rw [show ((⌊((p.pre : ℚ) + (p.post : ℚ))⌋).toNat) = p.pre + p.post from by
      rw [show ((p.pre : ℚ) + (p.post : ℚ)) = (((p.pre + p.post : Nat)) : ℚ) from by
        push_cast; ring, Int.floor_natCast, Int.toNat_natCast]]
    rw [traceLoop.eq_def]
    dsimp only
    rw [if_neg (by simp [List.isEmpty_iff, encodeDataRec])]
    dsimp only [Option.getD]
    rw [show encodeDataRec (p.rawVersion / 100) 0 r1 =
      encodeDataRec ((hdrOfParams 1 p).Version) 0 r1 from rfl,
      readTraceChannels_dataRec (hdrOfParams 1 p) (p.pre + p.post) 0 0 _ r1 _ hr1]
    dsimp only [readTraceChannels]
    rw [traceLoop.eq_def]
    dsimp only
    rw [if_neg (by simp [List.isEmpty_iff, encodeCommentRec])]
    dsimp only [Option.getD]
    rw [show encodeCommentRec (p.rawVersion / 100) 0 r2 =
      encodeCommentRec ((hdrOfParams 1 p).Version) 0 r2 ++ [] from
      (List.append_nil _).symm,
      readTraceChannels_commentRec (hdrOfParams 1 p) _ 0 0
        (dataStep (hdrOfParams 1 p) 0 {} r1) r2 []]
    obtain ⟨k, hk⟩ : ∃ k,
        (encodeDataRec ((hdrOfParams 1 p).Version) 0 r1 ++
          (encodeCommentRec ((hdrOfParams 1 p).Version) 0 r2 ++ [])).length = k + 1 :=
      ⟨(encodeDataRec ((hdrOfParams 1 p).Version) 0 r1 ++
          (encodeCommentRec ((hdrOfParams 1 p).Version) 0 r2 ++ [])).length - 1, by
        have h := encodeDataRec_length_pos ((hdrOfParams 1 p).Version) 0 r1
        simp only [List.length_append]
        omega⟩
    rw [hk]
    dsimp only
    have hd1 : (dataStep (hdrOfParams 1 p) 0 ({} : TraceAcc) r1).data =
        [r1.samples] := by
      rw [dataStep_data]
      simp [hdrOfParams_chan]
    dsimp only [commentStep]
    rw [if_pos (by rw [hdrOfParams_chan]; rfl :
      ((0 : Nat) : ℤ) + 1 = (hdrOfParams 1 p).chan)]
    rw [appendAt1_newdata, dataStep_newdata]
    dsimp only [readTraceChannels]
    rw [traceLoop.eq_def]
    dsimp only
    rw [if_pos (show ([] : List Tok).isEmpty = true from rfl)]
    dsimp only
    refine ⟨_, rfl, ?_, ?_⟩
    · simp [appendAt1_data, hd1]
    · simp [appendAt1_data, hd1]

/-! ### Concrete gecko streams -/

/-- A concrete single-channel version-3.60 file header
(`snum = pre + post = 2`). -/
def p0g : GeckoParams :=
  { rawVersion := 360, serialtime := 7, timezone := 0, nChannels := 1,
    recordMode := 0, recordInterval := 1, numberOfStacks := 4, sampFreq := 1,
    pre := 1, post := 1, trigSource := 0, trigSlope := 0, extTrigRange := 500,
    extTrigCoupling := 0, odoCal := 3, nomFreq := 100, antennaSep := 0 }

/-- The same header with two channels. -/
def p2g : GeckoParams :=
  { p0g with nChannels := 2 }

/-- A concrete channel header. -/
def c0g : ChanParams :=
  ⟨200, 0, 0⟩

/-- A concrete trace-channel record with trigger level 5 and payload
`[3, 4]`. -/
def r0g : TraceChanRec :=
  ⟨1, 73, 1, 5, 2, 3, 60, 45, 100, 1, [3, 4]⟩

section RatEval4
set_option allowUnsafeReducibility true
attribute [local semireducible] Rat.mul Rat.add Rat.inv Rat.sub Rat.neg Rat.div

set_option maxRecDepth 8000 in
/-- **C1** counterexample: a well-formed two-trace stream whose channel-1
records inject trigger level 5 decodes successfully, but the decoded
`trig_level` is `[0, 0]`, not the injected `[5, 5]`: finalization
overwrites it with zeros, refuting the claim that every listed per-trace
scalar equals the injected channel-1 value. -/
theorem gecko_trig_level_counterexample :
    ∃ g, gecko 1 (encodeStream p0g [c0g] [[r0g], [r0g]]) = .ok g ∧
      [[r0g], [r0g]].map (fun t => (t.headD emptyChanRec).trig_level) = [5, 5] ∧
      g.trig_level = [0, 0] ∧ g.trig_level ≠ [5, 5] := by
  refine ⟨_, rfl, by decide, by decide, by decide⟩

set_option maxRecDepth 8000 in
/-- Witness for C1: the round-trip theorem applied to a concrete
single-channel stream of two traces. -/
theorem gecko_roundtrip_witness :
    ∃ g, gecko ((0 : ℤ) + 1) (encodeStream p0g [c0g] [[r0g], [r0g]]) = .ok g ∧
      g.tnum = 2 ∧ g.decday = [73, 73] ∧ g.trig_level = [0, 0] ∧
      g.data = [[3, 3], [4, 4]] := by
  obtain ⟨g, hok, htnum, htn, hdd, hti, hla, hlo, hel, hgp, htl, hdat, _, _⟩ :=
    gecko_roundtrip p0g [c0g] [[r0g], [r0g]] 0 (by decide) (by decide)
      (by decide) (by decide) (by decide)
  refine ⟨g, hok, ?_, ?_, ?_, ?_⟩
  · rw [htnum]
    all_goals decide
  · rw [hdd]
    all_goals decide
  · rw [htl]
    all_goals decide
  · rw [hdat]
    all_goals decide

set_option maxRecDepth 8000 in
/-- Witness for C8: both corrupt-channel cases at concrete inputs — a bad
first channel header index and a bad first trace-record channel index. -/
theorem gecko_corrupt_channel_witness :
    gecko 1 (encodeFileHeader p0g ++
        (encodeChanHeaders (p0g.rawVersion / 100) 0 [] ++ ⟨.u8, 9⟩ :: [])) =
      .error .corruptChannel ∧
    gecko 1 (encodeFileHeader p0g ++
        (encodeChanHeaders (p0g.rawVersion / 100) 0 [c0g] ++
          (encodeTraceChans (p0g.rawVersion / 100) 0 [] ++
            ⟨.u8, 0⟩ :: ⟨.u8, 9⟩ :: []))) =
      .error .corruptChannel :=
  ⟨gecko_corrupt_channel.1 1 p0g [] 9 [] (by decide) (by decide),
   gecko_corrupt_channel.2 1 p0g [c0g] [] 0 9 [] (by decide) (by decide)
     (by decide) (by decide)⟩

/-- Witness for C9: the marker-abort theorem at a concrete two-channel
stream — a channel-1 data record followed by a channel-2 marker
record. -/
theorem gecko_marker_aborts_witness :
    gecko 1 (encodeFileHeader p2g ++
        (encodeChanHeaders (p2g.rawVersion / 100) 0 [c0g, c0g] ++
          (encodeDataRec (p2g.rawVersion / 100) 0 r0g ++
            (encodeMarkerRec (p2g.rawVersion / 100) 1 r0g ++ [])))) =
      .error .markerDate :=
  gecko_marker_aborts p2g [c0g, c0g] r0g r0g [] (by decide) (by decide)
    (by decide)

set_option maxRecDepth 8000 in
/-- **C10** counterexample: a stream whose *first record on the selected
output channel* (channel 2) is a comment record decodes successfully —
the channel-1 data record of the same trace already assigned `newdata` —
refuting the claim that every such stream fails with the unbound-variable
error. -/
theorem gecko_comment_selected_ok_counterexample :
    ∃ g, gecko 2 (encodeFileHeader p2g ++
        (encodeChanHeaders (p2g.rawVersion / 100) 0 [c0g, c0g] ++
          (encodeDataRec (p2g.rawVersion / 100) 0 r0g ++
            encodeCommentRec (p2g.rawVersion / 100) 1 r0g))) = .ok g ∧
      g.tnum = 1 ∧ g.data = [[3], [4]] := by
  refine ⟨_, rfl, by decide, by decide⟩

set_option maxRecDepth 8000 in
/-- Witness for C10: the unbound-`newdata` error at a concrete
comment-first stream, and the duplicate append at a concrete
data-then-comment stream. -/
theorem gecko_comment_newdata_witness :
    gecko 1 (encodeFileHeader p0g ++
        (encodeChanHeaders (p0g.rawVersion / 100) 0 [c0g] ++
          (encodeCommentRec (p0g.rawVersion / 100) 0 r0g ++ []))) =
      .error .unboundNewdata ∧
    ∃ g, gecko 1 (encodeFileHeader p0g ++
        (encodeChanHeaders (p0g.rawVersion / 100) 0 [c0g] ++
          (encodeDataRec (p0g.rawVersion / 100) 0 r0g ++
            encodeCommentRec (p0g.rawVersion / 100) 0 r0g))) = .ok g ∧
      g.tnum = 2 ∧
      g.data = transposeMat (p0g.pre + p0g.post) [r0g.samples, r0g.samples] := by
  refine ⟨gecko_comment_newdata.1 p0g [c0g] r0g [] (by decide) (by decide), ?_⟩
  exact gecko_comment_newdata.2 p0g [c0g] r0g r0g (by decide) (by decide)
    (by decide)

end RatEval4

end ImpDAR
